import Mathlib

/-!
Verification development for the library-management transaction workflow
(routes/books.py, routes/user.py, email_service.py).

Modelling conventions:
* Timestamps are integers counted in hours; `datetime.utcnow()` becomes an
  explicit `now : Int` parameter.  A calendar date is the floor division of a
  timestamp by 24 (Python `.date()` bucketing), 14 days are `14 * 24` hours,
  the 24-hour code expiry is `+ 24`, the 3-day reservation window `+ 72`.
* Each database table is a Lean list of records; ORM row mutation becomes a
  functional update keyed by primary id (`updById`); `query.first()` becomes
  `List.find?`.  Auto-increment ids are `freshId` (one more than the maximum).
* The per-request random 6-character verification code is passed to the
  operations as an explicit `code : String` argument.
* Email dispatch is out of scope (spec section 1); the record kept for a
  `Notification` is its recipient, type and related id, not its display text.
* Status columns are plain strings, exactly as in the untyped source.
-/

namespace LibMS

/-- Book row (data model, spec section 3): copy counts are integers so that
the nonnegativity of `available_copies` is a real statement. -/
structure Book where
  id : Nat
  total_copies : Int
  available_copies : Int
  is_active : Bool := true
deriving Repr, DecidableEq

/-- Borrowing row (data model, spec section 3). -/
structure Borrowing where
  id : Nat
  user_id : Nat
  book_id : Nat
  status : String
  borrow_date : Int
  due_date : Int
  return_date : Option Int
  renewed_count : Int
  fine_amount : Int
  fine_paid : Bool
  created_at : Int
deriving Repr, DecidableEq

/-- Reservation row (data model, spec section 3). -/
structure Reservation where
  id : Nat
  user_id : Nat
  book_id : Nat
  status : String
  created_at : Int
  expiry_date : Option Int
  notified : Bool
deriving Repr, DecidableEq

/-- TransactionVerification row (data model, spec section 3). -/
structure TransactionVerification where
  id : Nat
  user_id : Nat
  borrowing_id : Nat
  transaction_type : String
  verification_code : String
  created_at : Int
  expires_at : Int
  is_verified : Bool
  verified_at : Option Int
deriving Repr, DecidableEq

/-- Notification row, reduced to the fields the workflow writes that the
claims mention (recipient, type, related borrowing). -/
structure Notification where
  user_id : Nat
  notification_type : String
  related_id : Option Nat
deriving Repr, DecidableEq

/-- The database state touched by the transaction workflow engine. -/
structure LibState where
  books : List Book
  borrowings : List Borrowing
  reservations : List Reservation
  verifications : List TransactionVerification
  notifications : List Notification
deriving Repr, DecidableEq

/-- Functional update of the rows whose primary id matches, the embedding of
an ORM row mutation followed by commit. -/
def updById {α : Type} (getId : α → Nat) (l : List α) (i : Nat) (f : α → α) :
    List α :=
  l.map (fun x => if getId x == i then f x else x)

/-- Auto-increment primary key: one more than every id in use. -/
def freshId (ids : List Nat) : Nat := ids.foldr max 0 + 1

/-- Calendar date of a timestamp, Python `.date()`: floor division by 24
(integer division on `Int` rounds toward negative infinity for a positive
divisor, like Python). -/
def dateOf (t : Int) : Int := t / 24

def findBook (s : LibState) (bid : Nat) : Option Book :=
  s.books.find? (fun b => b.id == bid)

def addNotification (s : LibState) (uid : Nat) (ntype : String)
    (rel : Option Nat) : LibState :=
  { s with notifications :=
      s.notifications ++ [{ user_id := uid, notification_type := ntype,
                            related_id := rel }] }

/-- email_service.create_transaction_verification: a fresh unverified record
whose `expires_at` is 24 hours after creation. -/
def createTransactionVerification (s : LibState) (uid brid : Nat)
    (ttype code : String) (now : Int) : LibState :=
  let v : TransactionVerification :=
    { id := freshId (s.verifications.map (fun x => x.id)), user_id := uid,
      borrowing_id := brid, transaction_type := ttype,
      verification_code := code, created_at := now, expires_at := now + 24,
      is_verified := false, verified_at := none }
  { s with verifications := s.verifications ++ [v] }

/-- Modelled from the spec: `Book.is_available` (models.py is absent from
src/); section 4.1 admits a borrow when `available_copies > 0`. -/
def Book.is_available (b : Book) : Bool := decide (0 < b.available_copies)

/-- Modelled from the spec: `User.get_total_fine` (models.py is absent from
src/); the outstanding fine is the sum, over the unreturned overdue
borrowings of the user, of whole days overdue times 5, the formula of
section 4.4 and of the fines route in src/routes/user.py. -/
def get_total_fine (s : LibState) (uid : Nat) (now : Int) : Int :=
  (s.borrowings.filter (fun b =>
      b.user_id == uid && b.return_date == none && decide (b.due_date < now))
    ).foldr (fun b acc => (dateOf now - dateOf b.due_date) * 5 + acc) 0

/-- Modelled from the spec: `User.can_borrow` (models.py is absent from
src/); sections 4.1 and 6: fewer than `max_books_per_user = 5` active
borrowings and no outstanding fine. -/
def can_borrow (s : LibState) (uid : Nat) (now : Int) : Bool :=
  decide ((s.borrowings.filter (fun b =>
      b.user_id == uid && b.status == "borrowed")).length < 5)
  && get_total_fine s uid now ≤ 0

/-- Modelled from the spec: `Borrowing.can_renew` (models.py is absent from
src/); section 4.3: renewable when not overdue (`due_date ≥ now`) and
`renewed_count < 2`. -/
def Borrowing.can_renew (b : Borrowing) (now : Int) : Bool :=
  decide (now ≤ b.due_date) && decide (b.renewed_count < 2)

/-- Modelled from the spec: the successful effect of `Borrowing.renew`
(models.py is absent from src/); section 4.3: extend `due_date` by 14 days
from the original due date and increment `renewed_count`. -/
def Borrowing.renewApply (b : Borrowing) : Borrowing :=
  { b with due_date := b.due_date + 14 * 24,
           renewed_count := b.renewed_count + 1 }

/-- Modelled from the spec: `Borrowing.is_overdue` (models.py is absent from
src/): the due date has passed. -/
def Borrowing.is_overdue (b : Borrowing) (now : Int) : Bool :=
  decide (b.due_date < now)

/-- Modelled from the spec: `Borrowing.calculate_fine` (models.py is absent
from src/); section 4.4: `max(0, days_past_due)` whole days times
`fine_per_day = 5`. -/
def Borrowing.calculate_fine (b : Borrowing) (now : Int) : Int :=
  max 0 (dateOf now - dateOf b.due_date) * 5

/-- Modelled from the spec: `TransactionVerification.is_expired` (models.py
is absent from src/); section 4.4 step 4: `expires_at < now`. -/
def TransactionVerification.is_expired (v : TransactionVerification)
    (now : Int) : Bool :=
  decide (v.expires_at < now)

/-- Outcome of the borrow-initiation route, one constructor per flash. -/
inductive BorrowResult
  | notFound
  | unavailable
  | clearFines
  | capReached
  | alreadyBorrowed
  | requested
deriving Repr, DecidableEq

/-- books.py `borrow` (lines 140-252): precondition checks, then a `pending`
Borrowing due in 14 days, preemptive fulfilment of the requester's own
pending reservation, a notification, and a 24-hour borrow code; the book
row is not touched. -/
def borrow (s : LibState) (uid bid : Nat) (code : String) (now : Int) :
    LibState × BorrowResult :=
  match findBook s bid with
  | none => (s, BorrowResult.notFound)
  | some book =>
    if !book.is_available then (s, BorrowResult.unavailable)
    else if !can_borrow s uid now then
      if 0 < get_total_fine s uid now then (s, BorrowResult.clearFines)
      else (s, BorrowResult.capReached)
    else
      match s.borrowings.find? (fun b =>
          b.user_id == uid && b.book_id == bid && b.status == "borrowed") with
      | some _ => (s, BorrowResult.alreadyBorrowed)
      | none =>
        let newB : Borrowing :=
          { id := freshId (s.borrowings.map (fun b => b.id)), user_id := uid,
            book_id := bid, status := "pending", borrow_date := now,
            due_date := now + 14 * 24, return_date := none,
            renewed_count := 0, fine_amount := 0, fine_paid := false,
            created_at := now }
        let s1 :=
          match s.reservations.find? (fun r =>
              r.user_id == uid && r.book_id == bid && r.status == "pending") with
          | some r =>
            let rs := updById (fun x : Reservation => x.id) s.reservations r.id
              (fun x => { x with status := "fulfilled" })
            { s with reservations := rs }
          | none => s
        let s2 := { s1 with borrowings := s1.borrowings ++ [newB] }
        let s3 := addNotification s2 uid "borrow" (some newB.id)
        let s4 := createTransactionVerification s3 uid newB.id "borrow" code now
        (s4, BorrowResult.requested)

/-- Outcome of the return-initiation route. -/
inductive ReturnResult
  | notFound
  | requested
deriving Repr, DecidableEq

/-- user.py `return_book` (lines 152-189): on an active borrowing of the
caller, issue a 24-hour return code and move the borrowing to
`pending_return`; the book row is not touched. -/
def return_book (s : LibState) (uid brid : Nat) (code : String) (now : Int) :
    LibState × ReturnResult :=
  match s.borrowings.find? (fun b =>
      b.id == brid && b.user_id == uid && b.status == "borrowed") with
  | none => (s, ReturnResult.notFound)
  | some b =>
    let s1 := createTransactionVerification s uid b.id "return" code now
    let bs := updById (fun x : Borrowing => x.id) s1.borrowings b.id
      (fun x => { x with status := "pending_return" })
    ({ s1 with borrowings := bs }, ReturnResult.requested)

/-- Outcome of the renewal route, one constructor per flash. -/
inductive RenewResult
  | notFound
  | renewed
  | overdue
  | maxRenewals
  | cannotRenew
deriving Repr, DecidableEq

/-- user.py `renew_book` (lines 192-268): on an active borrowing of the
caller, apply the renewal immediately when permitted, record a notification
and issue a `renew` code; otherwise reject with the matching flash. -/
def renew_book (s : LibState) (uid brid : Nat) (code : String) (now : Int) :
    LibState × RenewResult :=
  match s.borrowings.find? (fun b =>
      b.id == brid && b.user_id == uid && b.status == "borrowed") with
  | none => (s, RenewResult.notFound)
  | some b =>
    if b.can_renew now then
      let bs := updById (fun x : Borrowing => x.id) s.borrowings b.id
        (fun x => x.renewApply)
      let s1 := { s with borrowings := bs }
      let s2 := addNotification s1 uid "renewal" (some b.id)
      let s3 := createTransactionVerification s2 uid b.id "renew" code now
      (s3, RenewResult.renewed)
    else if b.is_overdue now then (s, RenewResult.overdue)
    else if 2 ≤ b.renewed_count then (s, RenewResult.maxRenewals)
    else (s, RenewResult.cannotRenew)

/-- Outcome of the verification route, one constructor per flash; `success`
carries the transaction type echoed in the success flash. -/
inductive VerifyResult
  | emptyCode
  | badLength
  | invalidCode
  | alreadyVerified
  | expiredCode
  | adminContact
  | finalizeFailed
  | success (ttype : String)
deriving Repr, DecidableEq

/-- ASCII uppercasing of one character, the effect of Python `.upper()` on
the alphanumeric codes this system generates. -/
def asciiUpper (c : Char) : Char :=
  if decide ('a' ≤ c) && decide (c ≤ 'z') then Char.ofNat (c.toNat - 32) else c

def isSpaceChar (c : Char) : Bool :=
  c == ' ' || c == '\t' || c == '\n' || c == '\r'

/-- user.py normalisation of the posted code, `.strip().upper()`: drop
surrounding whitespace, then uppercase. -/
def normalizeCode (raw : String) : String :=
  String.mk
    ((((raw.data.dropWhile isSpaceChar).reverse.dropWhile
        isSpaceChar).reverse).map asciiUpper)

/-- Marking of a code as consumed (user.py lines 594-597). -/
def markVerified (now : Int) (x : TransactionVerification) :
    TransactionVerification :=
  { x with is_verified := true, verified_at := some now }

/-- Oldest pending reservation of a book: `filter_by(book_id, pending)
.order_by(created_at).first()`; on equal timestamps the earlier row wins. -/
def oldestPendingReservation (l : List Reservation) (bid : Nat) :
    Option Reservation :=
  (l.filter (fun r => r.book_id == bid && r.status == "pending")).foldl
    (fun acc r =>
      match acc with
      | none => some r
      | some a => if r.created_at < a.created_at then some r else a) none

/-- Finalize branch for a `borrow` code (user.py lines 604-625): only a
borrowing still awaiting confirmation is acted on; the book must still have
a copy (the race re-check), otherwise the consumed code is committed and an
admin-contact error surfaced.  `s` is the rollback target, `sm` the staged
state with the code marked consumed. -/
def finalizeBorrow (s sm : LibState) (uid : Nat) (br : Borrowing)
    (now : Int) : LibState × VerifyResult :=
  if br.status == "pending" || br.status == "pending_verification" then
    match findBook s br.book_id with
    | none => (s, VerifyResult.finalizeFailed)
    | some book =>
      if book.available_copies ≤ 0 then
        (sm, VerifyResult.adminContact)
      else
        let bks := updById (fun x : Book => x.id) sm.books book.id
          (fun bk => { bk with available_copies := bk.available_copies - 1 })
        let s1 := { sm with books := bks }
        let brs := updById (fun x : Borrowing => x.id) s1.borrowings br.id
          (fun x => { x with status := "borrowed", borrow_date := now })
        let s2 := { s1 with borrowings := brs }
        let s3 := addNotification s2 uid "borrow" (some br.id)
        (s3, VerifyResult.success "borrow")
  else
    match findBook s br.book_id with
    | none => (sm, VerifyResult.finalizeFailed)
    | some _ => (sm, VerifyResult.success "borrow")

/-- Finalize branch for a `return` code (user.py lines 627-653): record the
return and the fine, free a copy, and promote the oldest pending
reservation of the book when one exists. -/
def finalizeReturn (s sm : LibState) (br : Borrowing) (now : Int) :
    LibState × VerifyResult :=
  match findBook s br.book_id with
  | none => (s, VerifyResult.finalizeFailed)
  | some book =>
    let brs := updById (fun x : Borrowing => x.id) sm.borrowings br.id
      (fun x =>
        { x with return_date := some now,
                 fine_amount := x.calculate_fine now,
                 status := "returned" })
    let s1 := { sm with borrowings := brs }
    let bks := updById (fun x : Book => x.id) s1.books book.id
      (fun bk => { bk with available_copies := bk.available_copies + 1 })
    let s2 := { s1 with books := bks }
    match oldestPendingReservation s2.reservations book.id with
    | some r =>
      let rs := updById (fun x : Reservation => x.id) s2.reservations r.id
        (fun x =>
          { x with expiry_date := some (now + 72), notified := true })
      let s3 := { s2 with reservations := rs }
      let s4 := addNotification s3 r.user_id "reservation" none
      (s4, VerifyResult.success "return")
    | none => (s2, VerifyResult.success "return")

/-- Finalize branch for a `renew` code (user.py lines 655-659): re-apply the
renewal when still permitted; the success flash then needs the book row. -/
def finalizeRenew (s sm : LibState) (br : Borrowing) (now : Int) :
    LibState × VerifyResult :=
  if br.can_renew now then
    let brs := updById (fun x : Borrowing => x.id) sm.borrowings br.id
      (fun x => x.renewApply)
    let s1 := { sm with borrowings := brs }
    match findBook s br.book_id with
    | none => (s1, VerifyResult.finalizeFailed)
    | some _ => (s1, VerifyResult.success "renew")
  else
    match findBook s br.book_id with
    | none => (sm, VerifyResult.finalizeFailed)
    | some _ => (sm, VerifyResult.success "renew")

/-- Finalize step of verification: dereference the borrowing of the code and
dispatch on the transaction type.  An attribute access on a missing
borrowing or book raises, which rolls everything back to `s` before the
commit, and leaves the committed `sm` mutations in place when the raise
happens in the success flash after the commit (the flash reads
`borrowing.book.title`). -/
def finalize (s sm : LibState) (uid : Nat) (v : TransactionVerification)
    (now : Int) : LibState × VerifyResult :=
  match s.borrowings.find? (fun b => b.id == v.borrowing_id) with
  | none =>
    if v.transaction_type == "borrow" || v.transaction_type == "return"
        || v.transaction_type == "renew" then
      (s, VerifyResult.finalizeFailed)
    else (sm, VerifyResult.finalizeFailed)
  | some br =>
    if v.transaction_type == "borrow" then finalizeBorrow s sm uid br now
    else if v.transaction_type == "return" then finalizeReturn s sm br now
    else if v.transaction_type == "renew" then finalizeRenew s sm br now
    else
      match findBook s br.book_id with
      | none => (sm, VerifyResult.finalizeFailed)
      | some _ => (sm, VerifyResult.success v.transaction_type)

/-- State with the found code marked consumed, the staged mutation of
user.py lines 594-597. -/
def markState (s : LibState) (v : TransactionVerification) (now : Int) :
    LibState :=
  let vs := updById (fun x : TransactionVerification => x.id) s.verifications
    v.id (markVerified now)
  { s with verifications := vs }

/-- user.py `verify_transaction_code` (lines 558-668): normalise the posted
code, look it up for the calling user, reject empty, short, unknown,
consumed or expired codes without touching the state; otherwise stage the
consumed mark and finalize by transaction type. -/
def verify (s : LibState) (uid : Nat) (raw : String) (now : Int) :
    LibState × VerifyResult :=
  let code := normalizeCode raw
  if code == "" then (s, VerifyResult.emptyCode)
  else if code.length != 6 then (s, VerifyResult.badLength)
  else
    match s.verifications.find? (fun v =>
        v.user_id == uid && v.verification_code == code) with
    | none => (s, VerifyResult.invalidCode)
    | some v =>
      if v.is_verified then (s, VerifyResult.alreadyVerified)
      else if v.is_expired now then (s, VerifyResult.expiredCode)
      else finalize s (markState s v now) uid v now


/-- One workflow request, the four inbound triggers of spec section 6. -/
inductive Op
  | borrowReq (uid bid : Nat) (code : String) (now : Int)
  | returnReq (uid brid : Nat) (code : String) (now : Int)
  | renewReq (uid brid : Nat) (code : String) (now : Int)
  | verifyReq (uid : Nat) (raw : String) (now : Int)

/-- The state after one workflow request. -/
def applyOp (s : LibState) : Op → LibState
  | Op.borrowReq uid bid code now => (borrow s uid bid code now).1
  | Op.returnReq uid brid code now => (return_book s uid brid code now).1
  | Op.renewReq uid brid code now => (renew_book s uid brid code now).1
  | Op.verifyReq uid raw now => (verify s uid raw now).1

/-- Reachability by a sequence of workflow requests. -/
def Reachable (s0 s : LibState) : Prop :=
  ∃ ops : List Op, s = ops.foldl applyOp s0

/-- The copy-count invariant of spec sections 3 and 8. -/
def WeakInv (s : LibState) : Prop :=
  ∀ b ∈ s.books, 0 ≤ b.available_copies ∧ b.available_copies ≤ b.total_copies

/-- Statuses of a borrowing that hold a physical copy. -/
def holdsCopy (st : String) : Bool :=
  st == "borrowed" || st == "pending_return"

/-- Number of borrowings of a book that hold one of its copies. -/
def activeCount (l : List Borrowing) (bid : Nat) : Nat :=
  l.countP (fun b => b.book_id == bid && holdsCopy b.status)

/-- A starting state of the system: the catalogue may be populated but no
borrowing workflow has begun. -/
def InitState (s : LibState) : Prop :=
  s.borrowings = [] ∧ s.verifications = [] ∧ WeakInv s ∧
    (s.books.map Book.id).Nodup ∧ (s.reservations.map Reservation.id).Nodup

/-- Inductive strengthening of the copy-count invariant: held copies are
counted against the total, an unconsumed return code always points at a
unique borrowing that is in `pending_return`, and primary ids are unique. -/
structure Inv (s : LibState) : Prop where
  counts : ∀ b ∈ s.books, 0 ≤ b.available_copies ∧
    b.available_copies + (activeCount s.borrowings b.id : Int) ≤ b.total_copies
  retPending : ∀ v ∈ s.verifications, v.transaction_type = "return" →
    v.is_verified = false →
      ∃ br ∈ s.borrowings, br.id = v.borrowing_id ∧ br.status = "pending_return"
  retUnique : ∀ v1 ∈ s.verifications, ∀ v2 ∈ s.verifications,
    v1.transaction_type = "return" → v2.transaction_type = "return" →
    v1.is_verified = false → v2.is_verified = false →
    v1.borrowing_id = v2.borrowing_id → v1 = v2
  bookNd : (s.books.map Book.id).Nodup
  brNd : (s.borrowings.map Borrowing.id).Nodup
  verNd : (s.verifications.map TransactionVerification.id).Nodup
  resNd : (s.reservations.map Reservation.id).Nodup

section UpdLemmas

variable {α : Type} (getId : α → Nat)

theorem getId_ite_upd {f : α → α} (hf : ∀ x, getId (f x) = getId x)
    (i : Nat) (x : α) :
    getId (if getId x == i then f x else x) = getId x := by
  by_cases h : getId x = i <;> simp [h, hf]

theorem updById_map_getId {f : α → α} (hf : ∀ x, getId (f x) = getId x)
    (l : List α) (i : Nat) : (updById getId l i f).map getId = l.map getId := by
  induction l with
  | nil => rfl
  | cons a l ih =>
    simp only [updById, List.map_cons] at ih ⊢
    rw [ih, getId_ite_upd getId hf]

theorem updById_eq_self (l : List α) (i : Nat) (f : α → α)
    (h : ∀ x ∈ l, getId x ≠ i) : updById getId l i f = l := by
  induction l with
  | nil => rfl
  | cons a l ih =>
    have ht := ih (fun x hx => h x (List.mem_cons_of_mem a hx))
    have ha : (getId a == i) = false := by
      simpa using h a (List.mem_cons_self a l)
    simp only [updById, List.map_cons] at ht ⊢
    rw [ht, ha]
    simp

theorem mem_updById_of_getId_ne {l : List α} {i : Nat} {f : α → α} {x : α}
    (hx : x ∈ l) (hne : getId x ≠ i) : x ∈ updById getId l i f := by
  unfold updById
  exact List.mem_map.2 ⟨x, hx, by simp [hne]⟩

theorem exists_of_mem_updById {l : List α} {i : Nat} {f : α → α} {y : α}
    (hy : y ∈ updById getId l i f) :
    ∃ x ∈ l, y = if getId x = i then f x else x := by
  unfold updById at hy
  obtain ⟨x, hx, hxy⟩ := List.mem_map.1 hy
  refine ⟨x, hx, ?_⟩
  by_cases h : getId x = i <;> simp [h] at hxy ⊢ <;> exact hxy.symm

theorem find?_getId_updById {f : α → α} (hf : ∀ x, getId (f x) = getId x)
    (l : List α) (i : Nat) :
    (updById getId l i f).find? (fun x => getId x == i)
      = (l.find? (fun x => getId x == i)).map f := by
  induction l with
  | nil => rfl
  | cons a l ih =>
    by_cases h : getId a = i
    · simp [updById, List.find?_cons, hf, h]
    · have hba : (getId a == i) = false := by simpa using h
      have hga : (if (getId a == i) = true then f a else a) = a := by
        rw [hba]
        simp
      simp only [updById, List.map_cons] at ih ⊢
      rw [hga, List.find?_cons, List.find?_cons, hba]
      exact ih

theorem countP_updById {l : List α} {p : α → Bool} {t : α} {f : α → α}
    (hf : ∀ x, getId (f x) = getId x) (hnd : (l.map getId).Nodup) (ht : t ∈ l) :
    (updById getId l (getId t) f).countP p + (if p t then 1 else 0)
      = l.countP p + (if p (f t) then 1 else 0) := by
  induction l with
  | nil => cases ht
  | cons a l ih =>
    simp only [List.map_cons, List.nodup_cons] at hnd
    rcases List.mem_cons.1 ht with hta | htl
    · subst hta
      have hrest : updById getId l (getId t) f = l := by
        refine updById_eq_self getId l (getId t) f (fun x hx hxi => ?_)
        exact hnd.1 (hxi ▸ List.mem_map_of_mem getId hx)
      simp only [updById, List.map_cons] at hrest ⊢
      rw [hrest]
      simp [List.countP_cons]
      omega
    · have hne : getId a ≠ getId t := by
        intro h
        exact hnd.1 (h ▸ List.mem_map_of_mem getId htl)
      have hba : (getId a == getId t) = false := by simpa using hne
      have hga : (if (getId a == getId t) = true then f a else a) = a := by
        rw [hba]
        simp
      have hrec := ih hnd.2 htl
      simp only [updById] at hrec ⊢
      rw [List.map_cons, hga, List.countP_cons, List.countP_cons]
      omega

theorem mem_getId_lt_freshId {ids : List Nat} {i : Nat} (h : i ∈ ids) :
    i < freshId ids := by
  have : i ≤ ids.foldr max 0 := by
    induction ids with
    | nil => cases h
    | cons a l ih =>
      rcases List.mem_cons.1 h with rfl | hl
      · exact Nat.le_max_left _ _
      · exact Nat.le_trans (ih hl) (Nat.le_max_right _ _)
  unfold freshId
  omega

theorem eq_of_mem_getId {α : Type} (getId : α → Nat) {l : List α}
    (hnd : (l.map getId).Nodup) {x y : α} (hx : x ∈ l) (hy : y ∈ l)
    (h : getId x = getId y) : x = y :=
  List.inj_on_of_nodup_map hnd hx hy h

theorem nodup_append_fresh {α : Type} (getId : α → Nat) {l : List α}
    (hnd : (l.map getId).Nodup) {v : α}
    (hv : getId v = freshId (l.map getId)) :
    ((l ++ [v]).map getId).Nodup := by
  rw [List.map_append, List.map_singleton]
  refine List.Nodup.append hnd (List.nodup_singleton _) ?_
  intro a ha hb
  rw [List.mem_singleton] at hb
  subst hb
  exact absurd (hv ▸ mem_getId_lt_freshId ha) (lt_irrefl _)

theorem countP_updById_of_pres {α : Type} (getId : α → Nat) {l : List α}
    {i : Nat} {p : α → Bool} {f : α → α} (h : ∀ x, p (f x) = p x) :
    (updById getId l i f).countP p = l.countP p := by
  induction l with
  | nil => rfl
  | cons a l ih =>
    simp only [updById, List.map_cons, List.countP_cons] at ih ⊢
    rw [ih]
    by_cases ha : getId a = i <;> simp [ha, h]

end UpdLemmas

theorem mem_updById_self {α : Type} (getId : α → Nat) {l : List α} {t : α}
    {f : α → α} (ht : t ∈ l) : f t ∈ updById getId l (getId t) f := by
  unfold updById
  exact List.mem_map.2 ⟨t, ht, by simp⟩

/-- The invariant only reads four of the state fields, so states that agree
there share it. -/
theorem inv_of_fields_eq {s t : LibState} (hs : Inv s) (hb : t.books = s.books)
    (hbr : t.borrowings = s.borrowings) (hres : t.reservations = s.reservations)
    (hver : t.verifications = s.verifications) : Inv t := by
  obtain ⟨c, rp, ru, nb, nbr, nv, nr⟩ := hs
  exact ⟨by rw [hb, hbr]; exact c, by rw [hver, hbr]; exact rp,
    by rw [hver]; exact ru, by rw [hb]; exact nb, by rw [hbr]; exact nbr,
    by rw [hver]; exact nv, by rw [hres]; exact nr⟩

/-- Marking any verification as consumed preserves the invariant. -/
theorem inv_mark {s : LibState} (hs : Inv s) (i : Nat) (now : Int) :
    Inv { s with
          verifications := updById (fun x : TransactionVerification => x.id)
                             s.verifications i (markVerified now) } := by
  obtain ⟨c, rp, ru, nb, nbr, nv, nr⟩ := hs
  refine ⟨c, ?_, ?_, nb, nbr, ?_, nr⟩
  · intro v hv htt hun
    obtain ⟨x, hx, hxv⟩ := exists_of_mem_updById
      (fun x : TransactionVerification => x.id) hv
    by_cases h : x.id = i
    · rw [if_pos h] at hxv
      rw [hxv] at hun
      simp [markVerified] at hun
    · rw [if_neg h] at hxv
      subst hxv
      exact rp v hx htt hun
  · intro v1 hv1 v2 hv2 ht1 ht2 hu1 hu2 hbid
    obtain ⟨x1, hx1, he1⟩ := exists_of_mem_updById
      (fun x : TransactionVerification => x.id) hv1
    obtain ⟨x2, hx2, he2⟩ := exists_of_mem_updById
      (fun x : TransactionVerification => x.id) hv2
    by_cases h1 : x1.id = i
    · rw [if_pos h1] at he1
      rw [he1] at hu1
      simp [markVerified] at hu1
    · by_cases h2 : x2.id = i
      · rw [if_pos h2] at he2
        rw [he2] at hu2
        simp [markVerified] at hu2
      · rw [if_neg h1] at he1
        rw [if_neg h2] at he2
        subst he1
        subst he2
        exact ru v1 hx1 v2 hx2 ht1 ht2 hu1 hu2 hbid
  · have := updById_map_getId (fun x : TransactionVerification => x.id)
      (f := markVerified now) (fun x => rfl) s.verifications i
    rw [this]
    exact nv

/-- Appending a notification row preserves the invariant. -/
theorem inv_addNotification {s : LibState} (hs : Inv s) (uid : Nat)
    (ntype : String) (rel : Option Nat) :
    Inv (addNotification s uid ntype rel) :=
  inv_of_fields_eq hs rfl rfl rfl rfl

/-- Issuing a fresh code of a type other than `return` preserves the
invariant. -/
theorem inv_createTV_nonreturn {s : LibState} (hs : Inv s) {uid brid : Nat}
    {ttype code : String} {now : Int} (htt : ttype ≠ "return") :
    Inv (createTransactionVerification s uid brid ttype code now) := by
  obtain ⟨c, rp, ru, nb, nbr, nv, nr⟩ := hs
  refine ⟨c, ?_, ?_, nb, nbr, ?_, nr⟩
  · intro v hv htv hun
    rcases List.mem_append.1 hv with hv | hv
    · exact rp v hv htv hun
    · rw [List.mem_singleton] at hv
      subst hv
      exact absurd htv htt
  · intro v1 hv1 v2 hv2 ht1 ht2 hu1 hu2 hbid
    rcases List.mem_append.1 hv1 with hv1 | hv1
    · rcases List.mem_append.1 hv2 with hv2 | hv2
      · exact ru v1 hv1 v2 hv2 ht1 ht2 hu1 hu2 hbid
      · rw [List.mem_singleton] at hv2
        subst hv2
        exact absurd ht2 htt
    · rw [List.mem_singleton] at hv1
      subst hv1
      exact absurd ht1 htt
  · exact nodup_append_fresh (fun x : TransactionVerification => x.id) nv rfl

/-- Applying the renewal mutation to any borrowing row preserves the
invariant: it changes neither status nor book nor id. -/
theorem inv_renew_upd {s : LibState} (hs : Inv s) (i : Nat) :
    Inv { s with
          borrowings := updById (fun x : Borrowing => x.id) s.borrowings i
                          Borrowing.renewApply } := by
  obtain ⟨c, rp, ru, nb, nbr, nv, nr⟩ := hs
  refine ⟨?_, ?_, ru, nb, ?_, nv, nr⟩
  · intro b hb
    have hcnt : activeCount (updById (fun x : Borrowing => x.id) s.borrowings
        i Borrowing.renewApply) b.id = activeCount s.borrowings b.id := by
      unfold activeCount
      exact countP_updById_of_pres (fun x : Borrowing => x.id)
        (fun x => by simp [Borrowing.renewApply])
    rw [hcnt]
    exact c b hb
  · intro v hv htt hun
    obtain ⟨br, hbr, hid, hst⟩ := rp v hv htt hun
    by_cases h : br.id = i
    · refine ⟨br.renewApply, ?_, ?_, ?_⟩
      · have := mem_updById_self (fun x : Borrowing => x.id)
          (f := Borrowing.renewApply) hbr
        simpa [h] using this
      · simpa [Borrowing.renewApply] using hid
      · simpa [Borrowing.renewApply] using hst
    · exact ⟨br, mem_updById_of_getId_ne (fun x : Borrowing => x.id) hbr h,
        hid, hst⟩
  · have := updById_map_getId (fun x : Borrowing => x.id)
      (f := Borrowing.renewApply) (fun x => rfl) s.borrowings i
    rw [this]
    exact nbr

/-- Appending a borrowing that holds no copy (status `pending`) with a fresh
id preserves the invariant. -/
theorem inv_append_inactive {s : LibState} (hs : Inv s) (nbr : Borrowing)
    (hstatus : holdsCopy nbr.status = false)
    (hfresh : nbr.id = freshId (s.borrowings.map (fun b => b.id))) :
    Inv { s with borrowings := s.borrowings ++ [nbr] } := by
  obtain ⟨c, rp, ru, nb, nd, nv, nr⟩ := hs
  refine ⟨?_, ?_, ru, nb, ?_, nv, nr⟩
  · intro b hb
    have hcnt : activeCount (s.borrowings ++ [nbr]) b.id
        = activeCount s.borrowings b.id := by
      unfold activeCount
      rw [List.countP_append]
      simp [List.countP_cons, hstatus]
    rw [hcnt]
    exact c b hb
  · intro v hv htt hun
    obtain ⟨br, hbr, hidv, hstv⟩ := rp v hv htt hun
    exact ⟨br, List.mem_append_left _ hbr, hidv, hstv⟩
  · exact nodup_append_fresh (fun b : Borrowing => b.id) nd hfresh

/-- Replacing the reservation table by one with distinct ids preserves the
invariant. -/
theorem inv_set_reservations {s : LibState} (hs : Inv s)
    {rs : List Reservation} (hrs : (rs.map Reservation.id).Nodup) :
    Inv { s with reservations := rs } := by
  obtain ⟨c, rp, ru, nb, nd, nv, nr⟩ := hs
  exact ⟨c, rp, ru, nb, nd, nv, hrs⟩

/-- Core of the borrow finalization: decrementing a positive copy count
while a non-holding borrowing becomes `borrowed` preserves the invariant. -/
theorem inv_borrow_fin {s : LibState} (hs : Inv s) {br : Borrowing} {bk : Book}
    (hbr : br ∈ s.borrowings) (hbk : bk ∈ s.books) (hid : bk.id = br.book_id)
    (hnold : holdsCopy br.status = false) (hpos : 0 < bk.available_copies)
    (now : Int) :
    Inv { s with
          books := updById (fun x : Book => x.id) s.books bk.id
                     (fun b => { b with
                                 available_copies := b.available_copies - 1 }),
          borrowings := updById (fun x : Borrowing => x.id) s.borrowings br.id
                          (fun x => { x with status := "borrowed",
                                             borrow_date := now }) } := by
  obtain ⟨c, rp, ru, nb, nd, nv, nr⟩ := hs
  have hid2 : br.book_id = bk.id := hid.symm
  refine ⟨?_, ?_, ru, ?_, ?_, nv, nr⟩
  · intro b hb
    obtain ⟨x, hx, hbx⟩ := exists_of_mem_updById (fun x : Book => x.id) hb
    have hcnt := countP_updById (fun x : Borrowing => x.id)
      (p := fun bb => bb.book_id == x.id && holdsCopy bb.status)
      (f := fun y => { y with status := "borrowed", borrow_date := now })
      (fun y => rfl) nd hbr
    simp only [] at hcnt
    by_cases hxi : x.id = bk.id
    · have hxbk : x = bk := eq_of_mem_getId Book.id nb hx hbk hxi
      subst hxbk
      rw [if_pos hxi] at hbx
      rw [hbx]
      have hp1 : (br.book_id == x.id && holdsCopy br.status) = false := by
        rw [hnold, Bool.and_false]
      have hp2 : (br.book_id == x.id && holdsCopy "borrowed") = true := by
        rw [hid2]
        simp [holdsCopy]
      simp only [hp1, hp2] at hcnt
      simp at hcnt
      have hc := c x hx
      dsimp only []
      unfold activeCount at hc ⊢
      omega
    · rw [if_neg hxi] at hbx
      rw [hbx]
      have hne : br.book_id ≠ x.id := by
        rw [hid2]
        exact fun h => hxi h.symm
      have hp1 : (br.book_id == x.id && holdsCopy br.status) = false := by
        simp [hne]
      have hp2 : (br.book_id == x.id && holdsCopy "borrowed") = false := by
        simp [hne]
      simp only [hp1, hp2] at hcnt
      simp at hcnt
      have hc := c x hx
      dsimp only []
      unfold activeCount at hc ⊢
      omega
  · intro v hv htt hun
    obtain ⟨br2, hbr2, hidv, hstv⟩ := rp v hv htt hun
    by_cases h : br2.id = br.id
    · exfalso
      have hb2 : br2 = br := eq_of_mem_getId Borrowing.id nd hbr2 hbr h
      rw [hb2] at hstv
      rw [hstv] at hnold
      exact absurd hnold (by decide)
    · exact ⟨br2, mem_updById_of_getId_ne (fun x : Borrowing => x.id) hbr2 h,
        hidv, hstv⟩
  · have := updById_map_getId (fun x : Book => x.id)
      (f := fun b => { b with available_copies := b.available_copies - 1 })
      (fun x => rfl) s.books bk.id
    rw [this]
    exact nb
  · have := updById_map_getId (fun x : Borrowing => x.id)
      (f := fun x => { x with status := "borrowed", borrow_date := now })
      (fun x => rfl) s.borrowings br.id
    rw [this]
    exact nd

/-- Core of the return finalization: incrementing the copy count while the
unique copy-holding borrowing of the consumed return code becomes
`returned` preserves the invariant; the reservation table may be replaced
by any table with distinct ids. -/
theorem inv_return_fin {s : LibState} (hs : Inv s) {br : Borrowing}
    {bk : Book} (hbr : br ∈ s.borrowings) (hbk : bk ∈ s.books)
    (hid : bk.id = br.book_id) (hst : br.status = "pending_return")
    (hnoret : ∀ v ∈ s.verifications, v.transaction_type = "return" →
        v.is_verified = false → v.borrowing_id ≠ br.id)
    {rs : List Reservation} (hrs : (rs.map Reservation.id).Nodup)
    (now : Int) :
    Inv { s with
          borrowings := updById (fun x : Borrowing => x.id) s.borrowings br.id
                          (fun x => { x with return_date := some now,
                                             fine_amount :=
                                               x.calculate_fine now,
                                             status := "returned" }),
          books := updById (fun x : Book => x.id) s.books bk.id
                     (fun b => { b with
                                 available_copies := b.available_copies + 1 }),
          reservations := rs } := by
  obtain ⟨c, rp, ru, nb, nd, nv, nr⟩ := hs
  have hid2 : br.book_id = bk.id := hid.symm
  refine ⟨?_, ?_, ru, ?_, ?_, nv, hrs⟩
  · intro b hb
    obtain ⟨x, hx, hbx⟩ := exists_of_mem_updById (fun x : Book => x.id) hb
    have hcnt := countP_updById (fun x : Borrowing => x.id)
      (p := fun bb => bb.book_id == x.id && holdsCopy bb.status)
      (f := fun y => { y with return_date := some now,
                              fine_amount := y.calculate_fine now,
                              status := "returned" })
      (fun y => rfl) nd hbr
    simp only [] at hcnt
    by_cases hxi : x.id = bk.id
    · have hxbk : x = bk := eq_of_mem_getId Book.id nb hx hbk hxi
      subst hxbk
      rw [if_pos hxi] at hbx
      rw [hbx]
      have hp1 : (br.book_id == x.id && holdsCopy br.status) = true := by
        rw [hid2, hst]
        simp [holdsCopy]
      have hp2 : (br.book_id == x.id && holdsCopy "returned") = false := by
        simp [holdsCopy]
      simp only [hp1, hp2] at hcnt
      simp at hcnt
      have hc := c x hx
      dsimp only []
      unfold activeCount at hc ⊢
      omega
    · rw [if_neg hxi] at hbx
      rw [hbx]
      have hne : br.book_id ≠ x.id := by
        rw [hid2]
        exact fun h => hxi h.symm
      have hp1 : (br.book_id == x.id && holdsCopy br.status) = false := by
        simp [hne]
      have hp2 : (br.book_id == x.id && holdsCopy "returned") = false := by
        simp [hne]
      simp only [hp1, hp2] at hcnt
      simp at hcnt
      have hc := c x hx
      dsimp only []
      unfold activeCount at hc ⊢
      omega
  · intro v hv htt hun
    obtain ⟨br2, hbr2, hidv, hstv⟩ := rp v hv htt hun
    have h : br2.id ≠ br.id := by
      intro h
      exact hnoret v hv htt hun (hidv ▸ h)
    exact ⟨br2, mem_updById_of_getId_ne (fun x : Borrowing => x.id) hbr2 h,
      hidv, hstv⟩
  · have := updById_map_getId (fun x : Book => x.id)
      (f := fun b => { b with available_copies := b.available_copies + 1 })
      (fun x => rfl) s.books bk.id
    rw [this]
    exact nb
  · have := updById_map_getId (fun x : Borrowing => x.id)
      (f := fun x => { x with return_date := some now,
                              fine_amount := x.calculate_fine now,
                              status := "returned" })
      (fun x => rfl) s.borrowings br.id
    rw [this]
    exact nd

/-- The finalize branch of a borrow code preserves the invariant. -/
theorem inv_finalizeBorrow {s sm : LibState} (hs : Inv s) (hsm : Inv sm)
    (hbooks : sm.books = s.books) (hbrs : sm.borrowings = s.borrowings)
    {uid : Nat} {br : Borrowing} (hbr : br ∈ s.borrowings) (now : Int) :
    Inv (finalizeBorrow s sm uid br now).1 := by
  unfold finalizeBorrow
  split
  · rename_i hstatus
    split
    · exact hs
    · rename_i book hbook
      split
      · exact hsm
      · rename_i hpos0
        have hbmem : book ∈ s.books := List.mem_of_find?_eq_some hbook
        have hbid : book.id = br.book_id := by
          simpa using List.find?_some hbook
        have hbm : book ∈ sm.books := by
          rw [hbooks]
          exact hbmem
        have hbrm : br ∈ sm.borrowings := by
          rw [hbrs]
          exact hbr
        have hnold : holdsCopy br.status = false := by
          rcases (by simpa using hstatus :
              br.status = "pending" ∨ br.status = "pending_verification") with
            h | h <;> rw [h] <;> decide
        have hpos : 0 < book.available_copies := by omega
        exact inv_addNotification
          (inv_borrow_fin hsm hbrm hbm hbid hnold hpos now) uid "borrow"
          (some br.id)
  · split
    · exact hsm
    · exact hsm

/-- The finalize branch of a return code preserves the invariant, given the
facts the state machine provides: the borrowing is in `pending_return` and
no unconsumed return code in the staged state still points at it. -/
theorem inv_finalizeReturn {s sm : LibState} (hs : Inv s) (hsm : Inv sm)
    (hbooks : sm.books = s.books) (hbrs : sm.borrowings = s.borrowings)
    {br : Borrowing} (hbr : br ∈ s.borrowings)
    (hst : br.status = "pending_return")
    (hnoret : ∀ v ∈ sm.verifications, v.transaction_type = "return" →
        v.is_verified = false → v.borrowing_id ≠ br.id) (now : Int) :
    Inv (finalizeReturn s sm br now).1 := by
  unfold finalizeReturn
  split
  · exact hs
  · rename_i book hbook
    have hbmem : book ∈ s.books := List.mem_of_find?_eq_some hbook
    have hbid : book.id = br.book_id := by
      simpa using List.find?_some hbook
    have hbm : book ∈ sm.books := by
      rw [hbooks]
      exact hbmem
    have hbrm : br ∈ sm.borrowings := by
      rw [hbrs]
      exact hbr
    dsimp only []
    split
    · rename_i r hr
      have hrs : ((updById (fun x : Reservation => x.id) sm.reservations r.id
          (fun x => { x with expiry_date := some (now + 72),
                             notified := true })).map Reservation.id).Nodup := by
        rw [updById_map_getId (fun x : Reservation => x.id)
          (f := fun x => { x with expiry_date := some (now + 72),
                                  notified := true }) (fun x => rfl)]
        exact hsm.resNd
      exact inv_addNotification
        (inv_return_fin hsm hbrm hbm hbid hst hnoret hrs now) r.user_id
        "reservation" none
    · exact inv_return_fin hsm hbrm hbm hbid hst hnoret hsm.resNd now

/-- The finalize branch of a renew code preserves the invariant. -/
theorem inv_finalizeRenew {s sm : LibState} (hs : Inv s) (hsm : Inv sm)
    {br : Borrowing} (now : Int) :
    Inv (finalizeRenew s sm br now).1 := by
  unfold finalizeRenew
  split
  · split
    · exact inv_renew_upd hsm br.id
    · exact inv_renew_upd hsm br.id
  · split
    · exact hsm
    · exact hsm

/-- The whole finalize step preserves the invariant. -/
theorem inv_finalize {s : LibState} (hs : Inv s) {v : TransactionVerification}
    (hv : v ∈ s.verifications) (hun : v.is_verified = false) (uid : Nat)
    (now : Int) : Inv (finalize s (markState s v now) uid v now).1 := by
  have hsm : Inv (markState s v now) := inv_mark hs v.id now
  unfold finalize
  split
  · split
    · exact hs
    · exact hsm
  · rename_i br hbrfind
    have hbr : br ∈ s.borrowings := List.mem_of_find?_eq_some hbrfind
    have hbrid : br.id = v.borrowing_id := by
      simpa using List.find?_some hbrfind
    split
    · exact inv_finalizeBorrow hs hsm rfl rfl hbr now
    · split
      · rename_i hnb htt
        have httr : v.transaction_type = "return" := by simpa using htt
        obtain ⟨br2, hbr2, hidv, hstv⟩ := hs.retPending v hv httr hun
        have hb2 : br2 = br := eq_of_mem_getId Borrowing.id hs.brNd hbr2 hbr
          (by rw [hidv, hbrid])
        have hst : br.status = "pending_return" := by
          rw [← hb2]
          exact hstv
        have hnoret : ∀ w ∈ (markState s v now).verifications,
            w.transaction_type = "return" → w.is_verified = false →
            w.borrowing_id ≠ br.id := by
          intro w hw htw huw
          simp only [markState] at hw
          obtain ⟨x, hx, hxw⟩ := exists_of_mem_updById
            (fun x : TransactionVerification => x.id) hw
          by_cases hxi : x.id = v.id
          · rw [if_pos hxi] at hxw
            rw [hxw] at huw
            simp [markVerified] at huw
          · rw [if_neg hxi] at hxw
            subst hxw
            intro hbid2
            have hwv : w = v := hs.retUnique w hx v hv htw httr huw hun
              (by rw [hbid2, hbrid])
            exact hxi (by rw [hwv])
        exact inv_finalizeReturn hs hsm rfl rfl hbr hst hnoret now
      · split
        · exact inv_finalizeRenew hs hsm now
        · split
          · exact hsm
          · exact hsm

/-- The verification route preserves the invariant. -/
theorem inv_verify {s : LibState} (hs : Inv s) (uid : Nat) (raw : String)
    (now : Int) : Inv (verify s uid raw now).1 := by
  unfold verify
  dsimp only []
  split
  · exact hs
  split
  · exact hs
  split
  · exact hs
  rename_i v hfind
  split
  · exact hs
  split
  · exact hs
  · rename_i hver hexp
    have hv : v ∈ s.verifications := List.mem_of_find?_eq_some hfind
    have hun : v.is_verified = false := by simpa using hver
    exact inv_finalize hs hv hun uid now

/-- The borrow-initiation route preserves the invariant. -/
theorem inv_borrow_op {s : LibState} (hs : Inv s) (uid bid : Nat)
    (code : String) (now : Int) : Inv (borrow s uid bid code now).1 := by
  unfold borrow
  split
  · exact hs
  · rename_i book hbook
    split
    · exact hs
    split
    · split
      · exact hs
      · exact hs
    · split
      · exact hs
      · dsimp only []
        split
        · rename_i r hr
          have h1 : Inv { s with
              reservations := updById (fun x : Reservation => x.id)
                                s.reservations r.id
                                (fun x => { x with status := "fulfilled" }) }
              := by
            refine inv_set_reservations hs ?_
            rw [updById_map_getId (fun x : Reservation => x.id)
              (f := fun x => { x with status := "fulfilled" }) (fun x => rfl)]
            exact hs.resNd
          exact inv_createTV_nonreturn
            (inv_addNotification
              (inv_append_inactive h1
                { id := freshId (s.borrowings.map (fun b => b.id)),
                  user_id := uid, book_id := bid, status := "pending",
                  borrow_date := now, due_date := now + 14 * 24,
                  return_date := none, renewed_count := 0, fine_amount := 0,
                  fine_paid := false, created_at := now }
                rfl rfl) uid "borrow" _) (by decide)
        · exact inv_createTV_nonreturn
            (inv_addNotification
              (inv_append_inactive hs
                { id := freshId (s.borrowings.map (fun b => b.id)),
                  user_id := uid, book_id := bid, status := "pending",
                  borrow_date := now, due_date := now + 14 * 24,
                  return_date := none, renewed_count := 0, fine_amount := 0,
                  fine_paid := false, created_at := now }
                rfl rfl) uid "borrow" _) (by decide)

/-- The return-initiation route preserves the invariant: the borrowed row
moves to `pending_return` exactly when its fresh return code is issued. -/
theorem inv_pend_return {s : LibState} (hs : Inv s) {b : Borrowing}
    (hb : b ∈ s.borrowings) (hbst : b.status = "borrowed") (uid : Nat)
    (code : String) (now : Int) :
    Inv { s with
          verifications := s.verifications ++
            [{ id := freshId (s.verifications.map (fun x => x.id)),
               user_id := uid, borrowing_id := b.id,
               transaction_type := "return", verification_code := code,
               created_at := now, expires_at := now + 24,
               is_verified := false, verified_at := none }],
          borrowings := updById (fun x : Borrowing => x.id) s.borrowings b.id
            (fun x => { x with status := "pending_return" }) } := by
  obtain ⟨c, rp, ru, nb, nd, nv, nr⟩ := hs
  refine ⟨?_, ?_, ?_, nb, ?_, ?_, nr⟩
  · intro bb hbb
    have hcnt := countP_updById (fun x : Borrowing => x.id)
      (p := fun y => y.book_id == bb.id && holdsCopy y.status)
      (f := fun x => { x with status := "pending_return" })
      (fun y => rfl) nd hb
    simp only [] at hcnt
    have ht1 : holdsCopy b.status = true := by
      rw [hbst]
      decide
    have ht2 : holdsCopy "pending_return" = true := by decide
    simp only [ht1, ht2] at hcnt
    have hc := c bb hbb
    dsimp only []
    unfold activeCount at hc ⊢
    omega
  · intro v hv htt hun
    rcases List.mem_append.1 hv with hv | hv
    · obtain ⟨br2, hbr2, hidv, hstv⟩ := rp v hv htt hun
      by_cases h : br2.id = b.id
      · exfalso
        have hb2 : br2 = b := eq_of_mem_getId Borrowing.id nd hbr2 hb h
        rw [hb2, hbst] at hstv
        exact absurd hstv (by decide)
      · exact ⟨br2, mem_updById_of_getId_ne (fun x : Borrowing => x.id) hbr2 h,
          hidv, hstv⟩
    · rw [List.mem_singleton] at hv
      subst hv
      refine ⟨{ b with status := "pending_return" }, ?_, rfl, rfl⟩
      have := mem_updById_self (fun x : Borrowing => x.id)
        (f := fun x => { x with status := "pending_return" }) hb
      simpa using this
  · intro v1 hv1 v2 hv2 ht1 ht2 hu1 hu2 hbid
    rcases List.mem_append.1 hv1 with hv1 | hv1 <;>
      rcases List.mem_append.1 hv2 with hv2 | hv2
    · exact ru v1 hv1 v2 hv2 ht1 ht2 hu1 hu2 hbid
    · exfalso
      rw [List.mem_singleton] at hv2
      subst hv2
      obtain ⟨br2, hbr2, hidv, hstv⟩ := rp v1 hv1 ht1 hu1
      have hb2 : br2 = b := eq_of_mem_getId Borrowing.id nd hbr2 hb
        (by rw [hidv, hbid])
      rw [hb2, hbst] at hstv
      exact absurd hstv (by decide)
    · exfalso
      rw [List.mem_singleton] at hv1
      subst hv1
      obtain ⟨br2, hbr2, hidv, hstv⟩ := rp v2 hv2 ht2 hu2
      have hb2 : br2 = b := eq_of_mem_getId Borrowing.id nd hbr2 hb
        (by rw [hidv, ← hbid])
      rw [hb2, hbst] at hstv
      exact absurd hstv (by decide)
    · rw [List.mem_singleton] at hv1 hv2
      rw [hv1, hv2]
  · have := updById_map_getId (fun x : Borrowing => x.id)
      (f := fun x => { x with status := "pending_return" })
      (fun x => rfl) s.borrowings b.id
    rw [this]
    exact nd
  · exact nodup_append_fresh (fun x : TransactionVerification => x.id) nv rfl

/-- The return-initiation route preserves the invariant. -/
theorem inv_return_op {s : LibState} (hs : Inv s) (uid brid : Nat)
    (code : String) (now : Int) : Inv (return_book s uid brid code now).1 := by
  unfold return_book
  split
  · exact hs
  · rename_i b hfind
    have hb : b ∈ s.borrowings := List.mem_of_find?_eq_some hfind
    have hp := List.find?_some hfind
    simp only [Bool.and_eq_true, beq_iff_eq] at hp
    exact inv_pend_return hs hb hp.2 uid code now

/-- The renewal route preserves the invariant. -/
theorem inv_renew_op {s : LibState} (hs : Inv s) (uid brid : Nat)
    (code : String) (now : Int) : Inv (renew_book s uid brid code now).1 := by
  unfold renew_book
  split
  · exact hs
  · rename_i b hfind
    split
    · exact inv_createTV_nonreturn
        (inv_addNotification (inv_renew_upd hs b.id) uid "renewal" (some b.id))
        (by decide)
    · split
      · exact hs
      · split
        · exact hs
        · exact hs

/-- Every workflow request preserves the invariant. -/
theorem inv_applyOp {s : LibState} (hs : Inv s) (op : Op) :
    Inv (applyOp s op) := by
  cases op with
  | borrowReq uid bid code now => exact inv_borrow_op hs uid bid code now
  | returnReq uid brid code now => exact inv_return_op hs uid brid code now
  | renewReq uid brid code now => exact inv_renew_op hs uid brid code now
  | verifyReq uid raw now => exact inv_verify hs uid raw now

/-- A starting state satisfies the strengthened invariant. -/
theorem init_inv {s : LibState} (h : InitState s) : Inv s := by
  obtain ⟨hbor, hver, hw, hbnd, hrnd⟩ := h
  refine ⟨?_, ?_, ?_, hbnd, ?_, ?_, hrnd⟩
  · intro b hb
    have hwb := hw b hb
    rw [hbor]
    unfold activeCount
    simp
    omega
  · intro v hv
    rw [hver] at hv
    cases hv
  · intro v hv
    rw [hver] at hv
    cases hv
  · rw [hbor]
    simp
  · rw [hver]
    simp

/-- Reachable states satisfy the strengthened invariant. -/
theorem inv_reachable {s0 s : LibState} (h0 : Inv s0) (hr : Reachable s0 s) :
    Inv s := by
  obtain ⟨ops, rfl⟩ := hr
  induction ops generalizing s0 with
  | nil => exact h0
  | cons op ops ih => exact ih (inv_applyOp h0 op)

/-- The strengthened invariant implies the copy-count invariant. -/
theorem weakInv_of_inv {s : LibState} (hs : Inv s) : WeakInv s := by
  intro b hb
  have hc := hs.counts b hb
  omega

/-- A one-book catalogue used by the concrete witnesses. -/
def exBook : Book := { id := 1, total_copies := 2, available_copies := 1 }

/-- A starting state with one book and no workflow history. -/
def exState : LibState :=
  { books := [exBook], borrowings := [], reservations := [],
    verifications := [], notifications := [] }

/-- C1: for every book, the invariant `0 ≤ available_copies ≤ total_copies`
holds before and after every workflow operation (borrow initiation, return
initiation, renewal, and verification of each transaction type), in every
state reached from a starting state in which it held. -/
theorem C1_copies_invariant (s0 s : LibState) (h0 : InitState s0)
    (hr : Reachable s0 s) (op : Op) :
    WeakInv s ∧ WeakInv (applyOp s op) := by
  have hinv := inv_reachable (init_inv h0) hr
  exact ⟨weakInv_of_inv hinv, weakInv_of_inv (inv_applyOp hinv op)⟩

/-- Witness for C1 at a concrete one-book state and a concrete borrow
request. -/
theorem C1_copies_invariant_witness :
    InitState exState ∧
      (WeakInv exState ∧
        WeakInv (applyOp exState (Op.borrowReq 1 1 "ABC123" 0))) :=
  ⟨by unfold InitState WeakInv; decide,
   C1_copies_invariant exState exState (by unfold InitState WeakInv; decide)
     ⟨[], rfl⟩ (Op.borrowReq 1 1 "ABC123" 0)⟩

/-- user.py fines route (lines 414-426): the amount listed for one
outstanding (unreturned, overdue) borrowing is the whole-day difference of
the calendar dates times 5 rupees per day. -/
def outstandingFineAmount (now : Int) (b : Borrowing) : Int :=
  (dateOf now - dateOf b.due_date) * 5

/-- A borrowed row due at hour 0, used by concrete witnesses. -/
def exBorrowed : Borrowing :=
  { id := 1, user_id := 1, book_id := 1, status := "borrowed",
    borrow_date := 0, due_date := 0, return_date := none, renewed_count := 0,
    fine_amount := 0, fine_paid := false, created_at := 0 }

/-- C9: for every borrowing the fine is the whole-day difference between the
current date and the due date times the 5-per-day rate, floored at 0 for
non-overdue borrowings; five days past due gives 25, an on-time return
gives 0.  The fines route amount agrees with the floored formula on every
overdue borrowing. -/
theorem C9_fine_formula (now : Int) (b : Borrowing) :
    (b.due_date < now →
      outstandingFineAmount now b
          = max 0 (dateOf now - dateOf b.due_date) * 5
        ∧ outstandingFineAmount now b = b.calculate_fine now) ∧
    (now ≤ b.due_date → b.calculate_fine now = 0) ∧
    (dateOf now = dateOf b.due_date + 5 →
      outstandingFineAmount now b = 25 ∧ b.calculate_fine now = 25) ∧
    (dateOf now = dateOf b.due_date → b.calculate_fine now = 0) := by
  refine ⟨fun h => ?_, fun h => ?_, fun h => ?_, fun h => ?_⟩
  · have hd : (0:Int) ≤ dateOf now - dateOf b.due_date := by
      unfold dateOf
      omega
    unfold outstandingFineAmount Borrowing.calculate_fine
    rw [max_eq_right hd]
    exact ⟨rfl, rfl⟩
  · have hd : dateOf now - dateOf b.due_date ≤ 0 := by
      unfold dateOf
      omega
    unfold Borrowing.calculate_fine
    rw [max_eq_left hd]
    norm_num
  · unfold outstandingFineAmount Borrowing.calculate_fine
    rw [h]
    constructor
    · ring
    · have hd : (0:Int) ≤ dateOf b.due_date + 5 - dateOf b.due_date := by
        omega
      rw [max_eq_right hd]
      ring
  · unfold Borrowing.calculate_fine
    rw [h]
    simp

/-- Witness for C9: due at hour 0 and returned at hour 120 (five days) the
fine is 25; checked at the due instant it is 0. -/
theorem C9_fine_formula_witness :
    outstandingFineAmount 120 exBorrowed = 25
      ∧ exBorrowed.calculate_fine 120 = 25
      ∧ exBorrowed.calculate_fine 0 = 0 :=
  ⟨((C9_fine_formula 120 exBorrowed).2.2.1 (by decide)).1,
   ((C9_fine_formula 120 exBorrowed).2.2.1 (by decide)).2,
   (C9_fine_formula 0 exBorrowed).2.1 (by decide)⟩

theorem find?_map_pred_inv {α : Type} (l : List α) (h : α → α) (p : α → Bool)
    (hp : ∀ x, p (h x) = p x) : (l.map h).find? p = (l.find? p).map h := by
  induction l with
  | nil => rfl
  | cons a l ih =>
    rw [List.map_cons, List.find?_cons, List.find?_cons, hp a]
    by_cases hpa : p a = true
    · rw [hpa]
      rfl
    · rw [Bool.not_eq_true] at hpa
      rw [hpa]
      exact ih

theorem find?_getId_of_mem {α : Type} (getId : α → Nat) {l : List α} {t : α}
    (hnd : (l.map getId).Nodup) (ht : t ∈ l) :
    l.find? (fun x => getId x == getId t) = some t := by
  induction l with
  | nil => cases ht
  | cons a l ih =>
    simp only [List.map_cons, List.nodup_cons] at hnd
    rw [List.find?_cons]
    rcases List.mem_cons.1 ht with rfl | htl
    · simp
    · have hne : getId a ≠ getId t := by
        intro h
        exact hnd.1 (h ▸ List.mem_map_of_mem getId htl)
      have hba : (getId a == getId t) = false := by simpa using hne
      rw [hba]
      exact ih hnd.2 htl

/-- A valid, fresh, unexpired six-character code reaches the finalize step
with the code staged as consumed. -/
theorem verify_eq_finalize {s : LibState} {uid : Nat} {raw : String}
    {now : Int} {v : TransactionVerification}
    (hlen : (normalizeCode raw).length = 6)
    (hfind : s.verifications.find? (fun x =>
        x.user_id == uid && x.verification_code == normalizeCode raw)
      = some v)
    (hun : v.is_verified = false) (hexp : v.is_expired now = false) :
    verify s uid raw now = finalize s (markState s v now) uid v now := by
  have h1 : (normalizeCode raw == "") = false := by
    simp only [beq_eq_false_iff_ne, ne_eq]
    intro h
    rw [h] at hlen
    simp at hlen
  have h2 : ((normalizeCode raw).length != 6) = false := by
    simp [hlen]
  unfold verify
  simp only [h1, h2, hfind, hun, hexp]
  simp [markState]

/-- Looking the code up again after it was staged as consumed finds the
consumed record. -/
theorem marked_lookup {s : LibState} {uid : Nat} {code : String} {now : Int}
    {v : TransactionVerification}
    (hfind : s.verifications.find? (fun x =>
        x.user_id == uid && x.verification_code == code) = some v) :
    (markState s v now).verifications.find? (fun x =>
        x.user_id == uid && x.verification_code == code)
      = some (markVerified now v) := by
  unfold markState updById
  dsimp only []
  rw [find?_map_pred_inv _ _ _ (fun x => by
    by_cases h : x.id = v.id <;> simp [h, markVerified])]
  rw [hfind]
  simp

/-- Shape of the finalize result for a borrow code on a pending borrowing
with copies left: decrement, activate, notify. -/
theorem finalize_borrow_success {s sm : LibState} {uid : Nat}
    {v : TransactionVerification} {br : Borrowing} {bk : Book} {now : Int}
    (httb : v.transaction_type = "borrow")
    (hbr : s.borrowings.find? (fun b => b.id == v.borrowing_id) = some br)
    (hst : br.status = "pending")
    (hbk : findBook s br.book_id = some bk)
    (hpos : 0 < bk.available_copies) :
    finalize s sm uid v now =
      (addNotification
        { sm with
          books := updById (fun x : Book => x.id) sm.books bk.id
                     (fun b => { b with
                                 available_copies := b.available_copies - 1 }),
          borrowings := updById (fun x : Borrowing => x.id) sm.borrowings br.id
                          (fun x => { x with status := "borrowed",
                                             borrow_date := now }) }
        uid "borrow" (some br.id),
       VerifyResult.success "borrow") := by
  unfold finalize finalizeBorrow
  rw [hbr]
  simp only [httb, hst, hbk]
  rw [if_pos (by decide : (("borrow" : String) == "borrow") = true)]
  rw [if_pos (by decide : (("pending" : String) == "pending"
        || ("pending" : String) == "pending_verification") = true)]
  rw [if_neg (by omega : ¬ bk.available_copies ≤ 0)]

/-- Shape of the finalize result for a borrow code when the book ran out of
copies: only the consumed mark survives, with the admin-contact error. -/
theorem finalize_borrow_exhausted {s sm : LibState} {uid : Nat}
    {v : TransactionVerification} {br : Borrowing} {bk : Book} {now : Int}
    (httb : v.transaction_type = "borrow")
    (hbr : s.borrowings.find? (fun b => b.id == v.borrowing_id) = some br)
    (hst : br.status = "pending")
    (hbk : findBook s br.book_id = some bk)
    (hz : bk.available_copies ≤ 0) :
    finalize s sm uid v now = (sm, VerifyResult.adminContact) := by
  unfold finalize finalizeBorrow
  rw [hbr]
  simp only [httb, hst, hbk]
  rw [if_pos (by decide : (("borrow" : String) == "borrow") = true)]
  rw [if_pos (by decide : (("pending" : String) == "pending"
        || ("pending" : String) == "pending_verification") = true)]
  rw [if_pos hz]

/-- Shape of the finalize result for a borrow code whose borrowing is in
none of the awaiting statuses: only the consumed mark, reported as
success. -/
theorem finalize_borrow_skip {s sm : LibState} {uid : Nat}
    {v : TransactionVerification} {br : Borrowing} {bk : Book} {now : Int}
    (httb : v.transaction_type = "borrow")
    (hbr : s.borrowings.find? (fun b => b.id == v.borrowing_id) = some br)
    (hst1 : br.status ≠ "pending") (hst2 : br.status ≠ "pending_verification")
    (hbk : findBook s br.book_id = some bk) :
    finalize s sm uid v now = (sm, VerifyResult.success "borrow") := by
  unfold finalize finalizeBorrow
  rw [hbr]
  simp only [httb, hbk]
  rw [if_pos (by decide : (("borrow" : String) == "borrow") = true)]
  rw [if_neg (by simp [hst1, hst2] :
    ¬ ((br.status == "pending" || br.status == "pending_verification")
        = true))]

/-- Shape of the finalize result for a return code when no pending
reservation exists for the book. -/
theorem finalize_return_none_res {s sm : LibState} {uid : Nat}
    {v : TransactionVerification} {br : Borrowing} {bk : Book} {now : Int}
    (httr : v.transaction_type = "return")
    (hbr : s.borrowings.find? (fun b => b.id == v.borrowing_id) = some br)
    (hbk : findBook s br.book_id = some bk)
    (hn : oldestPendingReservation sm.reservations bk.id = none) :
    finalize s sm uid v now =
      ({ sm with
         borrowings := updById (fun x : Borrowing => x.id) sm.borrowings br.id
                         (fun x => { x with return_date := some now,
                                            fine_amount :=
                                              x.calculate_fine now,
                                            status := "returned" }),
         books := updById (fun x : Book => x.id) sm.books bk.id
                    (fun b => { b with
                                available_copies := b.available_copies + 1 })
       }, VerifyResult.success "return") := by
  unfold finalize finalizeReturn
  rw [hbr]
  simp only [httr, hbk]
  rw [if_neg (by decide : ¬ ((("return" : String) == "borrow") = true))]
  rw [if_pos (by decide : (("return" : String) == "return") = true)]
  rw [hn]

/-- Shape of the finalize result for a return code when a pending
reservation exists: the selected reservation gets the 3-day window and a
notification goes to its owner. -/
theorem finalize_return_some_res {s sm : LibState} {uid : Nat}
    {v : TransactionVerification} {br : Borrowing} {bk : Book}
    {r : Reservation} {now : Int}
    (httr : v.transaction_type = "return")
    (hbr : s.borrowings.find? (fun b => b.id == v.borrowing_id) = some br)
    (hbk : findBook s br.book_id = some bk)
    (hr : oldestPendingReservation sm.reservations bk.id = some r) :
    finalize s sm uid v now =
      (addNotification
        { sm with
          borrowings := updById (fun x : Borrowing => x.id) sm.borrowings
                          br.id
                          (fun x => { x with return_date := some now,
                                             fine_amount :=
                                               x.calculate_fine now,
                                             status := "returned" }),
          books := updById (fun x : Book => x.id) sm.books bk.id
                     (fun b => { b with
                                 available_copies :=
                                   b.available_copies + 1 }),
          reservations := updById (fun x : Reservation => x.id)
                            sm.reservations r.id
                            (fun x => { x with
                                        expiry_date := some (now + 72),
                                        notified := true }) }
        r.user_id "reservation" none,
       VerifyResult.success "return") := by
  unfold finalize finalizeReturn
  rw [hbr]
  simp only [httr, hbk]
  rw [if_neg (by decide : ¬ ((("return" : String) == "borrow") = true))]
  rw [if_pos (by decide : (("return" : String) == "return") = true)]
  rw [hr]

/-- C4: a successful borrow initiation creates a `pending` borrowing due 14
days after the request and leaves the book table untouched; the decrement
of `available_copies` happens only on successful verification of the
borrow code, which also moves the borrowing to `borrowed`. -/
theorem C4_borrow_defers_decrement :
    (∀ (s : LibState) (uid bid : Nat) (code : String) (now : Int)
        (book : Book),
      findBook s bid = some book → book.is_available = true →
      can_borrow s uid now = true →
      s.borrowings.find? (fun b => b.user_id == uid && b.book_id == bid
        && b.status == "borrowed") = none →
      (borrow s uid bid code now).2 = BorrowResult.requested
        ∧ (borrow s uid bid code now).1.books = s.books
        ∧ ∃ nb ∈ (borrow s uid bid code now).1.borrowings,
            nb.user_id = uid ∧ nb.book_id = bid ∧ nb.status = "pending"
              ∧ nb.due_date = now + 14 * 24) ∧
    (∀ (s : LibState) (uid : Nat) (raw : String) (now : Int)
        (v : TransactionVerification) (br : Borrowing) (bk : Book),
      (normalizeCode raw).length = 6 →
      s.verifications.find? (fun x => x.user_id == uid
        && x.verification_code == normalizeCode raw) = some v →
      v.is_verified = false → v.is_expired now = false →
      v.transaction_type = "borrow" →
      s.borrowings.find? (fun b => b.id == v.borrowing_id) = some br →
      br.status = "pending" →
      findBook s br.book_id = some bk → 0 < bk.available_copies →
      (verify s uid raw now).2 = VerifyResult.success "borrow"
        ∧ (verify s uid raw now).1.books.find? (fun x => x.id == bk.id)
            = some { bk with available_copies := bk.available_copies - 1 }
        ∧ (verify s uid raw now).1.borrowings.find? (fun x => x.id == br.id)
            = some { br with status := "borrowed", borrow_date := now }) := by
  constructor
  · intro s uid bid code now book hbook hav hcb hdup
    unfold borrow
    rw [hbook]
    dsimp only []
    have h1 : ¬ ((!book.is_available) = true) := by simp [hav]
    have h2 : ¬ ((!can_borrow s uid now) = true) := by simp [hcb]
    rw [if_neg h1, if_neg h2, hdup]
    dsimp only []
    split
    · refine ⟨rfl, rfl, ?_⟩
      refine ⟨_, List.mem_append.2 (Or.inr (List.mem_singleton_self _)),
        rfl, rfl, rfl, rfl⟩
    · refine ⟨rfl, rfl, ?_⟩
      refine ⟨_, List.mem_append.2 (Or.inr (List.mem_singleton_self _)),
        rfl, rfl, rfl, rfl⟩
  · intro s uid raw now v br bk hlen hfind hun hexp httb hbr hst hbk hpos
    have hveq := verify_eq_finalize hlen hfind hun hexp
    have hfeq := @finalize_borrow_success s (markState s v now) uid v br bk
      now httb hbr hst hbk hpos
    have hbkid : bk.id = br.book_id := by
      unfold findBook at hbk
      simpa using List.find?_some hbk
    have hbrid : br.id = v.borrowing_id := by
      simpa using List.find?_some hbr
    rw [hveq, hfeq]
    refine ⟨rfl, ?_, ?_⟩
    · show (updById (fun x : Book => x.id) (markState s v now).books bk.id
        (fun b => { b with available_copies := b.available_copies - 1 })
          ).find? (fun x => x.id == bk.id) = _
      rw [find?_getId_updById (fun x : Book => x.id)
        (f := fun b => { b with available_copies := b.available_copies - 1 })
        (fun x => rfl)]
      have hmb : (markState s v now).books = s.books := rfl
      have hfindbk : s.books.find? (fun x => x.id == bk.id) = some bk := by
        rw [hbkid]
        unfold findBook at hbk
        exact hbk
      rw [hmb, hfindbk]
      rfl
    · show (updById (fun x : Borrowing => x.id) (markState s v now).borrowings
        br.id (fun x => { x with status := "borrowed", borrow_date := now })
          ).find? (fun x => x.id == br.id) = _
      rw [find?_getId_updById (fun x : Borrowing => x.id)
        (f := fun x => { x with status := "borrowed", borrow_date := now })
        (fun x => rfl)]
      have hmb : (markState s v now).borrowings = s.borrowings := rfl
      have hfindbr : s.borrowings.find? (fun x => x.id == br.id) = some br := by
        rw [hbrid]
        exact hbr
      rw [hmb, hfindbr]
      rfl

/-- The state after the witness borrow request on the one-book catalogue. -/
def sB : LibState := (borrow exState 1 1 "ABC123" 0).1

/-- Witness for C4 at the concrete one-book state: the request leaves the
copy count at 1, the verification decrements it. -/
theorem C4_borrow_defers_decrement_witness :
    (borrow exState 1 1 "ABC123" 0).2 = BorrowResult.requested
      ∧ (borrow exState 1 1 "ABC123" 0).1.books = exState.books
      ∧ (verify sB 1 "ABC123" 5).2 = VerifyResult.success "borrow"
      ∧ (verify sB 1 "ABC123" 5).1.books.find? (fun x => x.id == 1)
          = some { exBook with available_copies := 0 } :=
  ⟨(C4_borrow_defers_decrement.1 exState 1 1 "ABC123" 0 exBook (by decide)
      (by decide) (by decide) (by decide)).1,
   (C4_borrow_defers_decrement.1 exState 1 1 "ABC123" 0 exBook (by decide)
      (by decide) (by decide) (by decide)).2.1,
   (C4_borrow_defers_decrement.2 sB 1 "ABC123" 5
      { id := 1, user_id := 1, borrowing_id := 1,
        transaction_type := "borrow", verification_code := "ABC123",
        created_at := 0, expires_at := 24, is_verified := false,
        verified_at := none }
      { id := 1, user_id := 1, book_id := 1, status := "pending",
        borrow_date := 0, due_date := 336, return_date := none,
        renewed_count := 0, fine_amount := 0, fine_paid := false,
        created_at := 0 }
      exBook (by decide) (by decide) (by decide) (by decide) (by decide)
      (by decide) (by decide) (by decide) (by decide)).1,
   (C4_borrow_defers_decrement.2 sB 1 "ABC123" 5
      { id := 1, user_id := 1, borrowing_id := 1,
        transaction_type := "borrow", verification_code := "ABC123",
        created_at := 0, expires_at := 24, is_verified := false,
        verified_at := none }
      { id := 1, user_id := 1, book_id := 1, status := "pending",
        borrow_date := 0, due_date := 336, return_date := none,
        renewed_count := 0, fine_amount := 0, fine_paid := false,
        created_at := 0 }
      exBook (by decide) (by decide) (by decide) (by decide) (by decide)
      (by decide) (by decide) (by decide) (by decide)).2.1⟩

/-- C5: when a borrow code is verified but the book has no copies left at
finalize time, the distinct admin-contact outcome (its own constructor, not
the generic failure) is surfaced, the book and borrowing tables are
untouched, and the code stays consumed: is_verified is true, so a retry
sees an already-used code. -/
theorem C5_exhausted_finalize :
    ∀ (s : LibState) (uid : Nat) (raw : String) (now : Int)
      (v : TransactionVerification) (br : Borrowing) (bk : Book),
      (normalizeCode raw).length = 6 →
      s.verifications.find? (fun x => x.user_id == uid
        && x.verification_code == normalizeCode raw) = some v →
      v.is_verified = false → v.is_expired now = false →
      v.transaction_type = "borrow" →
      s.borrowings.find? (fun b => b.id == v.borrowing_id) = some br →
      br.status = "pending" →
      findBook s br.book_id = some bk → bk.available_copies ≤ 0 →
      (verify s uid raw now).2 = VerifyResult.adminContact
        ∧ (verify s uid raw now).1.books = s.books
        ∧ (verify s uid raw now).1.borrowings = s.borrowings
        ∧ (verify s uid raw now).1.verifications.find? (fun x =>
              x.user_id == uid && x.verification_code == normalizeCode raw)
            = some (markVerified now v)
        ∧ (markVerified now v).is_verified = true := by
  intro s uid raw now v br bk hlen hfind hun hexp httb hbr hst hbk hz
  have hveq := verify_eq_finalize hlen hfind hun hexp
  have hfeq := @finalize_borrow_exhausted s (markState s v now) uid v br bk
    now httb hbr hst hbk hz
  rw [hveq, hfeq]
  exact ⟨rfl, rfl, rfl, marked_lookup hfind, rfl⟩

/-- A state whose only book is exhausted while a pending borrowing and its
unconsumed borrow code still exist. -/
def sExhaust : LibState where
  books := [{ id := 1, total_copies := 1, available_copies := 0 }]
  borrowings := [{ id := 1, user_id := 1, book_id := 1,
                   status := "pending", borrow_date := 0, due_date := 336,
                   return_date := none, renewed_count := 0, fine_amount := 0,
                   fine_paid := false, created_at := 0 }]
  reservations := []
  verifications := [{ id := 1, user_id := 1, borrowing_id := 1,
                      transaction_type := "borrow",
                      verification_code := "ABC123", created_at := 0,
                      expires_at := 24, is_verified := false,
                      verified_at := none }]
  notifications := []

/-- Witness for C5 on the exhausted one-book state. -/
theorem C5_exhausted_finalize_witness :
    (verify sExhaust 1 "ABC123" 5).2 = VerifyResult.adminContact
      ∧ (verify sExhaust 1 "ABC123" 5).1.books = sExhaust.books :=
  ⟨(C5_exhausted_finalize sExhaust 1 "ABC123" 5
      { id := 1, user_id := 1, borrowing_id := 1,
        transaction_type := "borrow", verification_code := "ABC123",
        created_at := 0, expires_at := 24, is_verified := false,
        verified_at := none }
      { id := 1, user_id := 1, book_id := 1, status := "pending",
        borrow_date := 0, due_date := 336, return_date := none,
        renewed_count := 0, fine_amount := 0, fine_paid := false,
        created_at := 0 }
      { id := 1, total_copies := 1, available_copies := 0 }
      (by decide) (by decide) (by decide) (by decide) (by decide)
      (by decide) (by decide) (by decide) (by decide)).1,
   (C5_exhausted_finalize sExhaust 1 "ABC123" 5
      { id := 1, user_id := 1, borrowing_id := 1,
        transaction_type := "borrow", verification_code := "ABC123",
        created_at := 0, expires_at := 24, is_verified := false,
        verified_at := none }
      { id := 1, user_id := 1, book_id := 1, status := "pending",
        borrow_date := 0, due_date := 336, return_date := none,
        renewed_count := 0, fine_amount := 0, fine_paid := false,
        created_at := 0 }
      { id := 1, total_copies := 1, available_copies := 0 }
      (by decide) (by decide) (by decide) (by decide) (by decide)
      (by decide) (by decide) (by decide) (by decide)).2.1⟩

/-- A state with a valid borrow code whose borrowing sits in the dead-code
status `pending_verification`. -/
def s10 : LibState where
  books := [exBook]
  borrowings := [{ id := 1, user_id := 1, book_id := 1,
                   status := "pending_verification", borrow_date := 0,
                   due_date := 336, return_date := none, renewed_count := 0,
                   fine_amount := 0, fine_paid := false, created_at := 0 }]
  reservations := []
  verifications := [{ id := 1, user_id := 1, borrowing_id := 1,
                      transaction_type := "borrow",
                      verification_code := "ABC123", created_at := 0,
                      expires_at := 24, is_verified := false,
                      verified_at := none }]
  notifications := []

/-- Counterexample to C10 as stated: the handler also accepts the status
string pending_verification, whose borrowing is not in status `pending`,
and then does mutate the book and the borrowing. -/
theorem C10_counterexample :
    (∃ br ∈ s10.borrowings, br.status ≠ "pending")
      ∧ (verify s10 1 "ABC123" 5).2 = VerifyResult.success "borrow"
      ∧ (verify s10 1 "ABC123" 5).1.books ≠ s10.books
      ∧ (verify s10 1 "ABC123" 5).1.borrowings ≠ s10.borrowings := by
  refine ⟨⟨_, List.mem_singleton_self _, by decide⟩, by decide, by decide,
    by decide⟩

/-- C10 amended: for a valid, unexpired, unused borrow code whose borrowing
is in a status other than `pending` and other than the dead-code alias
`pending_verification` (for example `borrowed` or `returned`), verification
marks the code consumed and reports success while books, borrowings and
notifications all stay unchanged. -/
theorem C10_nonpending_skip :
    ∀ (s : LibState) (uid : Nat) (raw : String) (now : Int)
      (v : TransactionVerification) (br : Borrowing) (bk : Book),
      (normalizeCode raw).length = 6 →
      s.verifications.find? (fun x => x.user_id == uid
        && x.verification_code == normalizeCode raw) = some v →
      v.is_verified = false → v.is_expired now = false →
      v.transaction_type = "borrow" →
      s.borrowings.find? (fun b => b.id == v.borrowing_id) = some br →
      br.status ≠ "pending" → br.status ≠ "pending_verification" →
      findBook s br.book_id = some bk →
      (verify s uid raw now).2 = VerifyResult.success "borrow"
        ∧ (verify s uid raw now).1.books = s.books
        ∧ (verify s uid raw now).1.borrowings = s.borrowings
        ∧ (verify s uid raw now).1.notifications = s.notifications
        ∧ (verify s uid raw now).1.verifications.find? (fun x =>
              x.user_id == uid && x.verification_code == normalizeCode raw)
            = some (markVerified now v)
        ∧ (markVerified now v).is_verified = true := by
  intro s uid raw now v br bk hlen hfind hun hexp httb hbr hst1 hst2 hbk
  have hveq := verify_eq_finalize hlen hfind hun hexp
  have hfeq := @finalize_borrow_skip s (markState s v now) uid v br bk
    now httb hbr hst1 hst2 hbk
  rw [hveq, hfeq]
  exact ⟨rfl, rfl, rfl, rfl, marked_lookup hfind, rfl⟩

/-- A state with a valid borrow code whose borrowing is already
`borrowed`. -/
def s10b : LibState where
  books := [exBook]
  borrowings := [{ id := 1, user_id := 1, book_id := 1,
                   status := "borrowed", borrow_date := 0, due_date := 336,
                   return_date := none, renewed_count := 0, fine_amount := 0,
                   fine_paid := false, created_at := 0 }]
  reservations := []
  verifications := [{ id := 1, user_id := 1, borrowing_id := 1,
                      transaction_type := "borrow",
                      verification_code := "ABC123", created_at := 0,
                      expires_at := 24, is_verified := false,
                      verified_at := none }]
  notifications := []

/-- Witness for the amended C10 on a borrowing already in `borrowed`. -/
theorem C10_nonpending_skip_witness :
    (verify s10b 1 "ABC123" 5).2 = VerifyResult.success "borrow"
      ∧ (verify s10b 1 "ABC123" 5).1.books = s10b.books :=
  ⟨(C10_nonpending_skip s10b 1 "ABC123" 5
      { id := 1, user_id := 1, borrowing_id := 1,
        transaction_type := "borrow", verification_code := "ABC123",
        created_at := 0, expires_at := 24, is_verified := false,
        verified_at := none }
      { id := 1, user_id := 1, book_id := 1, status := "borrowed",
        borrow_date := 0, due_date := 336, return_date := none,
        renewed_count := 0, fine_amount := 0, fine_paid := false,
        created_at := 0 }
      exBook (by decide) (by decide) (by decide) (by decide) (by decide)
      (by decide) (by decide) (by decide) (by decide)).1,
   (C10_nonpending_skip s10b 1 "ABC123" 5
      { id := 1, user_id := 1, borrowing_id := 1,
        transaction_type := "borrow", verification_code := "ABC123",
        created_at := 0, expires_at := 24, is_verified := false,
        verified_at := none }
      { id := 1, user_id := 1, book_id := 1, status := "borrowed",
        borrow_date := 0, due_date := 336, return_date := none,
        renewed_count := 0, fine_amount := 0, fine_paid := false,
        created_at := 0 }
      exBook (by decide) (by decide) (by decide) (by decide) (by decide)
      (by decide) (by decide) (by decide) (by decide)).2.1⟩

theorem foldl_oldest_spec (l : List Reservation) :
    ∀ (acc : Option Reservation) (r : Reservation),
      l.foldl (fun acc r =>
        match acc with
        | none => some r
        | some a => if r.created_at < a.created_at then some r else a) acc
        = some r →
      (acc = some r ∨ r ∈ l)
        ∧ (∀ a, acc = some a → r.created_at ≤ a.created_at)
        ∧ (∀ x ∈ l, r.created_at ≤ x.created_at) := by
  induction l with
  | nil =>
    intro acc r h
    simp only [List.foldl_nil] at h
    refine ⟨Or.inl h, ?_, ?_⟩
    · intro a ha
      rw [h] at ha
      injection ha with ha
      rw [ha]
    · intro x hx
      cases hx
  | cons y l ih =>
    intro acc r h
    rw [List.foldl_cons] at h
    obtain ⟨hmem, hacc, hall⟩ := ih _ r h
    cases acc with
    | none =>
      simp only [] at hmem hacc
      refine ⟨?_, ?_, ?_⟩
      · rcases hmem with hm | hm
        · injection hm with hm
          exact Or.inr (hm ▸ List.mem_cons_self y l)
        · exact Or.inr (List.mem_cons_of_mem _ hm)
      · intro a ha
        cases ha
      · intro x hx
        rcases List.mem_cons.1 hx with rfl | hx
        · exact hacc _ rfl
        · exact hall x hx
    | some a0 =>
      simp only [] at hmem hacc
      by_cases hlt : y.created_at < a0.created_at
      · simp only [if_pos hlt] at hmem hacc
        refine ⟨?_, ?_, ?_⟩
        · rcases hmem with hm | hm
          · injection hm with hm
            exact Or.inr (hm ▸ List.mem_cons_self y l)
          · exact Or.inr (List.mem_cons_of_mem _ hm)
        · intro a ha
          injection ha with ha
          subst ha
          have h1 := hacc y rfl
          omega
        · intro x hx
          rcases List.mem_cons.1 hx with rfl | hx
          · exact hacc _ rfl
          · exact hall x hx
      · simp only [if_neg hlt] at hmem hacc
        refine ⟨?_, ?_, ?_⟩
        · rcases hmem with hm | hm
          · exact Or.inl hm
          · exact Or.inr (List.mem_cons_of_mem _ hm)
        · intro a ha
          injection ha with ha
          subst ha
          exact hacc _ rfl
        · intro x hx
          rcases List.mem_cons.1 hx with rfl | hx
          · have h1 := hacc a0 rfl
            omega
          · exact hall x hx

/-- The reservation selected on return is pending, belongs to the book, and
is oldest by creation time among the pending reservations of the book. -/
theorem oldestPending_spec {l : List Reservation} {bid : Nat}
    {r : Reservation} (h : oldestPendingReservation l bid = some r) :
    r ∈ l ∧ r.status = "pending" ∧ r.book_id = bid
      ∧ ∀ r2 ∈ l, r2.book_id = bid → r2.status = "pending" →
          r.created_at ≤ r2.created_at := by
  unfold oldestPendingReservation at h
  obtain ⟨hmem, _, hall⟩ := foldl_oldest_spec _ none r h
  rcases hmem with hm | hm
  · cases hm
  · have hf := List.mem_filter.1 hm
    have hq := hf.2
    simp only [Bool.and_eq_true, beq_iff_eq] at hq
    refine ⟨hf.1, hq.2, hq.1, ?_⟩
    intro r2 hr2 hb2 hs2
    refine hall r2 (List.mem_filter.2 ⟨hr2, ?_⟩)
    simp [hb2, hs2]

/-- C3: successful verification of a return code sets return_date to now,
fine_amount to the computed fine and status to returned, increments the
book by exactly one copy, and, when a pending reservation exists for the
book, promotes exactly the oldest one by created_at: 3-day expiry window,
notified set, one notification to its owner, no other reservation row
touched; with no pending reservation, reservations and notifications are
untouched. -/
theorem C3_return_finalize :
    ∀ (s : LibState) (uid : Nat) (raw : String) (now : Int)
      (v : TransactionVerification) (br : Borrowing) (bk : Book),
      (normalizeCode raw).length = 6 →
      s.verifications.find? (fun x => x.user_id == uid
        && x.verification_code == normalizeCode raw) = some v →
      v.is_verified = false → v.is_expired now = false →
      v.transaction_type = "return" →
      s.borrowings.find? (fun b => b.id == v.borrowing_id) = some br →
      findBook s br.book_id = some bk →
      (verify s uid raw now).2 = VerifyResult.success "return"
        ∧ (verify s uid raw now).1.borrowings.find? (fun x => x.id == br.id)
            = some { br with return_date := some now,
                             fine_amount := br.calculate_fine now,
                             status := "returned" }
        ∧ (verify s uid raw now).1.books.find? (fun x => x.id == bk.id)
            = some { bk with available_copies := bk.available_copies + 1 }
        ∧ (oldestPendingReservation s.reservations bk.id = none →
            (verify s uid raw now).1.reservations = s.reservations
              ∧ (verify s uid raw now).1.notifications = s.notifications)
        ∧ (∀ r, oldestPendingReservation s.reservations bk.id = some r →
            r ∈ s.reservations ∧ r.status = "pending" ∧ r.book_id = bk.id
              ∧ (∀ r2 ∈ s.reservations, r2.book_id = bk.id →
                  r2.status = "pending" → r.created_at ≤ r2.created_at)
              ∧ (verify s uid raw now).1.reservations
                  = updById (fun x : Reservation => x.id) s.reservations
                      r.id
                      (fun x => { x with expiry_date := some (now + 72),
                                         notified := true })
              ∧ (verify s uid raw now).1.notifications
                  = s.notifications
                      ++ [{ user_id := r.user_id,
                            notification_type := "reservation",
                            related_id := none }]) := by
  intro s uid raw now v br bk hlen hfind hun hexp httr hbr hbk
  have hveq := verify_eq_finalize hlen hfind hun hexp
  have hbkid : bk.id = br.book_id := by
    unfold findBook at hbk
    simpa using List.find?_some hbk
  have hbrid : br.id = v.borrowing_id := by
    simpa using List.find?_some hbr
  have hfindbk : s.books.find? (fun x => x.id == bk.id) = some bk := by
    rw [hbkid]
    unfold findBook at hbk
    exact hbk
  have hfindbr : s.borrowings.find? (fun x => x.id == br.id) = some br := by
    rw [hbrid]
    exact hbr
  cases hopt : oldestPendingReservation s.reservations bk.id with
  | none =>
    have hfeq := @finalize_return_none_res s (markState s v now) uid v br bk
      now httr hbr hbk hopt
    rw [hveq, hfeq]
    refine ⟨rfl, ?_, ?_, fun _ => ⟨rfl, rfl⟩, ?_⟩
    · show (updById (fun x : Borrowing => x.id)
        (markState s v now).borrowings br.id
        (fun x => { x with return_date := some now,
                           fine_amount := x.calculate_fine now,
                           status := "returned" })).find?
          (fun x => x.id == br.id) = _
      rw [find?_getId_updById (fun x : Borrowing => x.id)
        (f := fun x => { x with return_date := some now,
                                fine_amount := x.calculate_fine now,
                                status := "returned" })
        (fun x => rfl)]
      have hmb : (markState s v now).borrowings = s.borrowings := rfl
      rw [hmb, hfindbr]
      rfl
    · show (updById (fun x : Book => x.id) (markState s v now).books bk.id
        (fun b => { b with available_copies := b.available_copies + 1 })
          ).find? (fun x => x.id == bk.id) = _
      rw [find?_getId_updById (fun x : Book => x.id)
        (f := fun b => { b with available_copies := b.available_copies + 1 })
        (fun x => rfl)]
      have hmb : (markState s v now).books = s.books := rfl
      rw [hmb, hfindbk]
      rfl
    · intro r hr
      cases hr
  | some r =>
    have hfeq := @finalize_return_some_res s (markState s v now) uid v br bk
      r now httr hbr hbk hopt
    rw [hveq, hfeq]
    refine ⟨rfl, ?_, ?_, ?_, ?_⟩
    · show (updById (fun x : Borrowing => x.id)
        (markState s v now).borrowings br.id
        (fun x => { x with return_date := some now,
                           fine_amount := x.calculate_fine now,
                           status := "returned" })).find?
          (fun x => x.id == br.id) = _
      rw [find?_getId_updById (fun x : Borrowing => x.id)
        (f := fun x => { x with return_date := some now,
                                fine_amount := x.calculate_fine now,
                                status := "returned" })
        (fun x => rfl)]
      have hmb : (markState s v now).borrowings = s.borrowings := rfl
      rw [hmb, hfindbr]
      rfl
    · show (updById (fun x : Book => x.id) (markState s v now).books bk.id
        (fun b => { b with available_copies := b.available_copies + 1 })
          ).find? (fun x => x.id == bk.id) = _
      rw [find?_getId_updById (fun x : Book => x.id)
        (f := fun b => { b with available_copies := b.available_copies + 1 })
        (fun x => rfl)]
      have hmb : (markState s v now).books = s.books := rfl
      rw [hmb, hfindbk]
      rfl
    · intro h0
      cases h0
    · intro r2 hr2
      injection hr2 with hr2
      subst hr2
      obtain ⟨hmem, hstat, hbook, hold⟩ := oldestPending_spec hopt
      exact ⟨hmem, hstat, hbook, hold, rfl, rfl⟩

/-- A state holding a pending_return borrowing, its return code and one
pending reservation by another user. -/
def sRet : LibState where
  books := [{ id := 1, total_copies := 1, available_copies := 0 }]
  borrowings := [{ id := 1, user_id := 1, book_id := 1,
                   status := "pending_return", borrow_date := 0,
                   due_date := 336, return_date := none, renewed_count := 0,
                   fine_amount := 0, fine_paid := false, created_at := 0 }]
  reservations := [{ id := 1, user_id := 2, book_id := 1,
                     status := "pending", created_at := 10,
                     expiry_date := none, notified := false }]
  verifications := [{ id := 1, user_id := 1, borrowing_id := 1,
                      transaction_type := "return",
                      verification_code := "RET123", created_at := 340,
                      expires_at := 364, is_verified := false,
                      verified_at := none }]
  notifications := []

/-- Witness for C3: the return is finalized, the copy comes back, and the
single pending reservation is promoted with a notification to its owner. -/
theorem C3_return_finalize_witness :
    (verify sRet 1 "RET123" 350).2 = VerifyResult.success "return"
      ∧ (verify sRet 1 "RET123" 350).1.books.find? (fun x => x.id == 1)
          = some { id := 1, total_copies := 1, available_copies := 1 }
      ∧ (verify sRet 1 "RET123" 350).1.notifications
          = [{ user_id := 2, notification_type := "reservation",
               related_id := none }] := by
  have happ := C3_return_finalize sRet 1 "RET123" 350
    { id := 1, user_id := 1, borrowing_id := 1,
      transaction_type := "return", verification_code := "RET123",
      created_at := 340, expires_at := 364, is_verified := false,
      verified_at := none }
    { id := 1, user_id := 1, book_id := 1, status := "pending_return",
      borrow_date := 0, due_date := 336, return_date := none,
      renewed_count := 0, fine_amount := 0, fine_paid := false,
      created_at := 0 }
    { id := 1, total_copies := 1, available_copies := 0 }
    (by decide) (by decide) (by decide) (by decide) (by decide) (by decide)
    (by decide)
  have hres := happ.2.2.2.2
    { id := 1, user_id := 2, book_id := 1, status := "pending",
      created_at := 10, expiry_date := none, notified := false }
    (by decide)
  exact ⟨happ.1, happ.2.2.1, hres.2.2.2.2.2⟩

/-- C6: each precondition failure of borrow initiation (book unavailable;
cap reached or fines owed; existing active borrow of the same book) ends in
its specific outcome with the state returned exactly as it was: no
borrowing, reservation, verification or notification row is created and no
book row changes. -/
theorem C6_borrow_rejections :
    ∀ (s : LibState) (uid bid : Nat) (code : String) (now : Int)
      (book : Book),
      findBook s bid = some book →
      (book.is_available = false →
        borrow s uid bid code now = (s, BorrowResult.unavailable)) ∧
      (book.is_available = true → can_borrow s uid now = false →
        0 < get_total_fine s uid now →
        borrow s uid bid code now = (s, BorrowResult.clearFines)) ∧
      (book.is_available = true → can_borrow s uid now = false →
        get_total_fine s uid now ≤ 0 →
        borrow s uid bid code now = (s, BorrowResult.capReached)) ∧
      (∀ b0, book.is_available = true → can_borrow s uid now = true →
        s.borrowings.find? (fun b => b.user_id == uid && b.book_id == bid
          && b.status == "borrowed") = some b0 →
        borrow s uid bid code now = (s, BorrowResult.alreadyBorrowed)) := by
  intro s uid bid code now book hbook
  refine ⟨?_, ?_, ?_, ?_⟩
  · intro hav
    unfold borrow
    rw [hbook]
    dsimp only []
    have h1 : (!book.is_available) = true := by simp [hav]
    rw [if_pos h1]
  · intro hav hcb hfine
    unfold borrow
    rw [hbook]
    dsimp only []
    have h1 : ¬ ((!book.is_available) = true) := by simp [hav]
    have h2 : (!can_borrow s uid now) = true := by simp [hcb]
    rw [if_neg h1, if_pos h2, if_pos hfine]
  · intro hav hcb hfine
    unfold borrow
    rw [hbook]
    dsimp only []
    have h1 : ¬ ((!book.is_available) = true) := by simp [hav]
    have h2 : (!can_borrow s uid now) = true := by simp [hcb]
    have h3 : ¬ (0 < get_total_fine s uid now) := by omega
    rw [if_neg h1, if_pos h2, if_neg h3]
  · intro b0 hav hcb hdup
    unfold borrow
    rw [hbook]
    dsimp only []
    have h1 : ¬ ((!book.is_available) = true) := by simp [hav]
    have h2 : ¬ ((!can_borrow s uid now) = true) := by simp [hcb]
    rw [if_neg h1, if_neg h2, hdup]

/-- A state in which user 1 already borrowed a copy of the book while one
copy remains on the shelf: borrowing it again is a duplicate. -/
def sDup : LibState where
  books := [{ id := 1, total_copies := 2, available_copies := 1 }]
  borrowings := [{ id := 1, user_id := 1, book_id := 1,
                   status := "borrowed", borrow_date := 0, due_date := 500,
                   return_date := none, renewed_count := 0, fine_amount := 0,
                   fine_paid := false, created_at := 0 }]
  reservations := []
  verifications := []
  notifications := []

/-- A state in which user 1 has an overdue unreturned borrowing and so owes
a fine. -/
def sFines : LibState where
  books := [{ id := 1, total_copies := 2, available_copies := 1 },
            { id := 2, total_copies := 1, available_copies := 1 }]
  borrowings := [{ id := 1, user_id := 1, book_id := 1,
                   status := "borrowed", borrow_date := 0, due_date := 0,
                   return_date := none, renewed_count := 0, fine_amount := 0,
                   fine_paid := false, created_at := 0 }]
  reservations := []
  verifications := []
  notifications := []

/-- Witness for C6: unavailable, fines-owed and duplicate rejections at
concrete states, each leaving the state untouched. -/
theorem C6_borrow_rejections_witness :
    borrow sExhaust 2 1 "ABC123" 10 = (sExhaust, BorrowResult.unavailable)
      ∧ borrow sFines 1 2 "ABC123" 100 = (sFines, BorrowResult.clearFines)
      ∧ borrow sDup 1 1 "ABC123" 10 = (sDup, BorrowResult.alreadyBorrowed) :=
  ⟨(C6_borrow_rejections sExhaust 2 1 "ABC123" 10
      { id := 1, total_copies := 1, available_copies := 0 }
      (by decide)).1 (by decide),
   (C6_borrow_rejections sFines 1 2 "ABC123" 100
      { id := 2, total_copies := 1, available_copies := 1 }
      (by decide)).2.1 (by decide) (by decide) (by decide),
   (C6_borrow_rejections sDup 1 1 "ABC123" 10
      { id := 1, total_copies := 2, available_copies := 1 }
      (by decide)).2.2.2
     { id := 1, user_id := 1, book_id := 1, status := "borrowed",
       borrow_date := 0, due_date := 500, return_date := none,
       renewed_count := 0, fine_amount := 0, fine_paid := false,
       created_at := 0 }
     (by decide) (by decide) (by decide)⟩

/-- C7: for a borrowing in status `borrowed`, renewal is refused (with the
state unchanged) when `renewed_count = 2` or the due date has passed, and
otherwise succeeds with `renewed_count` incremented by exactly one and the
due date extended by 14 days, applied immediately by the renewal route
itself, with no verification involved.  `renewed_count ≤ 2` captures the
range of the counter in the running system. -/
theorem C7_renewal :
    ∀ (s : LibState) (uid brid : Nat) (code : String) (now : Int)
      (b : Borrowing),
      s.borrowings.find? (fun x => x.id == brid && x.user_id == uid
        && x.status == "borrowed") = some b →
      (s.borrowings.map Borrowing.id).Nodup →
      b.renewed_count ≤ 2 →
      (b.renewed_count = 2 ∨ b.due_date < now →
        ∃ res, renew_book s uid brid code now = (s, res)
          ∧ (res = RenewResult.overdue ∨ res = RenewResult.maxRenewals)) ∧
      (now ≤ b.due_date → b.renewed_count ≠ 2 →
        (renew_book s uid brid code now).2 = RenewResult.renewed
          ∧ (renew_book s uid brid code now).1.borrowings.find?
              (fun x => x.id == b.id)
            = some { b with due_date := b.due_date + 14 * 24,
                            renewed_count := b.renewed_count + 1 }) := by
  intro s uid brid code now b hfind hnd hc2
  constructor
  · intro hdisj
    have hcr : b.can_renew now = false := by
      unfold Borrowing.can_renew
      rcases hdisj with h | h
      · have h2 : ¬ (b.renewed_count < 2) := by omega
        simp [h2]
      · have h2 : ¬ (now ≤ b.due_date) := by omega
        simp [h2]
    unfold renew_book
    rw [hfind]
    dsimp only []
    rw [if_neg (by simp [hcr])]
    split
    · exact ⟨RenewResult.overdue, rfl, Or.inl rfl⟩
    · split
      · exact ⟨RenewResult.maxRenewals, rfl, Or.inr rfl⟩
      · rename_i hov hcnt
        exfalso
        have h1 : ¬ (b.due_date < now) := by
          simpa [Borrowing.is_overdue] using hov
        unfold Borrowing.can_renew at hcr
        rcases Bool.and_eq_false_iff.1 hcr with h | h <;>
          simp only [decide_eq_false_iff_not] at h <;> omega
  · intro hle hne
    have hcr : b.can_renew now = true := by
      unfold Borrowing.can_renew
      have h2 : b.renewed_count < 2 := by omega
      simp [hle, h2]
    unfold renew_book
    rw [hfind]
    dsimp only []
    rw [if_pos hcr]
    refine ⟨rfl, ?_⟩
    show (updById (fun x : Borrowing => x.id) s.borrowings b.id
      (fun x => x.renewApply)).find? (fun x => x.id == b.id) = _
    rw [find?_getId_updById (fun x : Borrowing => x.id)
      (f := fun x => x.renewApply) (fun x => rfl)]
    have hb : b ∈ s.borrowings := List.mem_of_find?_eq_some hfind
    rw [find?_getId_of_mem Borrowing.id hnd hb]
    rfl

/-- A state with a borrowed book renewable once more, and one with the
renewal cap already reached. -/
def sRenew : LibState where
  books := [exBook]
  borrowings := [{ id := 1, user_id := 1, book_id := 1,
                   status := "borrowed", borrow_date := 0, due_date := 336,
                   return_date := none, renewed_count := 0, fine_amount := 0,
                   fine_paid := false, created_at := 0 }]
  reservations := []
  verifications := []
  notifications := []

def sRenewMax : LibState where
  books := [exBook]
  borrowings := [{ id := 1, user_id := 1, book_id := 1,
                   status := "borrowed", borrow_date := 0, due_date := 336,
                   return_date := none, renewed_count := 2, fine_amount := 0,
                   fine_paid := false, created_at := 0 }]
  reservations := []
  verifications := []
  notifications := []

/-- Witness for C7: a concrete successful renewal and a concrete cap
refusal. -/
theorem C7_renewal_witness :
    ((renew_book sRenew 1 1 "RNW123" 100).2 = RenewResult.renewed
        ∧ (renew_book sRenew 1 1 "RNW123" 100).1.borrowings.find?
            (fun x => x.id == 1)
          = some { id := 1, user_id := 1, book_id := 1,
                   status := "borrowed", borrow_date := 0, due_date := 672,
                   return_date := none, renewed_count := 1, fine_amount := 0,
                   fine_paid := false, created_at := 0 })
      ∧ ∃ res, renew_book sRenewMax 1 1 "RNW123" 100 = (sRenewMax, res)
          ∧ (res = RenewResult.overdue ∨ res = RenewResult.maxRenewals) :=
  ⟨(C7_renewal sRenew 1 1 "RNW123" 100
      { id := 1, user_id := 1, book_id := 1, status := "borrowed",
        borrow_date := 0, due_date := 336, return_date := none,
        renewed_count := 0, fine_amount := 0, fine_paid := false,
        created_at := 0 }
      (by decide) (by decide) (by decide)).2 (by decide) (by decide),
   (C7_renewal sRenewMax 1 1 "RNW123" 100
      { id := 1, user_id := 1, book_id := 1, status := "borrowed",
        borrow_date := 0, due_date := 336, return_date := none,
        renewed_count := 2, fine_amount := 0, fine_paid := false,
        created_at := 0 }
      (by decide) (by decide) (by decide)).1 (Or.inl (by decide))⟩

theorem finalize_adminContact_reservations {s sm : LibState} {uid : Nat}
    {v : TransactionVerification} {now : Int} {s1 : LibState}
    (h : finalize s sm uid v now = (s1, VerifyResult.adminContact)) :
    s1.reservations = sm.reservations := by
  unfold finalize finalizeBorrow finalizeReturn finalizeRenew at h
  dsimp only [] at h
  repeat' split at h
  all_goals injection h with h1 h2
  all_goals try cases h2
  all_goals subst h1
  all_goals rfl

/-- A verification that ends in the admin-contact outcome leaves the
reservation table untouched. -/
theorem verify_adminContact_reservations {s : LibState} {uid : Nat}
    {raw : String} {now : Int} {s1 : LibState}
    (h : verify s uid raw now = (s1, VerifyResult.adminContact)) :
    s1.reservations = s.reservations := by
  unfold verify at h
  dsimp only [] at h
  split at h
  · injection h with h1 h2
    cases h2
  split at h
  · injection h with h1 h2
    cases h2
  split at h
  · injection h with h1 h2
    cases h2
  split at h
  · injection h with h1 h2
    cases h2
  split at h
  · injection h with h1 h2
    cases h2
  · have hfe := finalize_adminContact_reservations h
    rw [hfe]
    rfl

/-- C8: when the requester holds a pending reservation for the book, a
successful borrow request marks that reservation fulfilled immediately, and
a later borrow verification that fails with the admin-contact race outcome
does not restore it: the reservation table is unchanged by that failing
call. -/
theorem C8_reservation_prefulfilled :
    ∀ (s : LibState) (uid bid : Nat) (code : String) (now : Int)
      (book : Book) (r : Reservation),
      findBook s bid = some book → book.is_available = true →
      can_borrow s uid now = true →
      s.borrowings.find? (fun b => b.user_id == uid && b.book_id == bid
        && b.status == "borrowed") = none →
      s.reservations.find? (fun x => x.user_id == uid && x.book_id == bid
        && x.status == "pending") = some r →
      (borrow s uid bid code now).2 = BorrowResult.requested
        ∧ (borrow s uid bid code now).1.reservations
            = updById (fun x : Reservation => x.id) s.reservations r.id
                (fun x => { x with status := "fulfilled" })
        ∧ ∀ (raw : String) (now2 : Int) (s2 : LibState),
            verify (borrow s uid bid code now).1 uid raw now2
              = (s2, VerifyResult.adminContact) →
            s2.reservations = (borrow s uid bid code now).1.reservations := by
  intro s uid bid code now book r hbook hav hcb hdup hres
  have hmain : (borrow s uid bid code now).2 = BorrowResult.requested
      ∧ (borrow s uid bid code now).1.reservations
          = updById (fun x : Reservation => x.id) s.reservations r.id
              (fun x => { x with status := "fulfilled" }) := by
    unfold borrow
    rw [hbook]
    dsimp only []
    have h1 : ¬ ((!book.is_available) = true) := by simp [hav]
    have h2 : ¬ ((!can_borrow s uid now) = true) := by simp [hcb]
    rw [if_neg h1, if_neg h2, hdup]
    dsimp only []
    rw [hres]
    exact ⟨rfl, rfl⟩
  exact ⟨hmain.1, hmain.2, fun raw now2 s2 h =>
    verify_adminContact_reservations h⟩

/-- A state where user 1 holds a pending reservation on the available
book. -/
def sResv : LibState where
  books := [exBook]
  borrowings := []
  reservations := [{ id := 1, user_id := 1, book_id := 1,
                     status := "pending", created_at := 0,
                     expiry_date := none, notified := false }]
  verifications := []
  notifications := []

/-- Witness for C8: the borrow request fulfils the reservation at request
time. -/
theorem C8_reservation_prefulfilled_witness :
    (borrow sResv 1 1 "ABC123" 0).2 = BorrowResult.requested
      ∧ (borrow sResv 1 1 "ABC123" 0).1.reservations
          = [{ id := 1, user_id := 1, book_id := 1, status := "fulfilled",
               created_at := 0, expiry_date := none, notified := false }] := by
  have happ := C8_reservation_prefulfilled sResv 1 1 "ABC123" 0 exBook
    { id := 1, user_id := 1, book_id := 1, status := "pending",
      created_at := 0, expiry_date := none, notified := false }
    (by decide) (by decide) (by decide) (by decide) (by decide)
  exact ⟨happ.1, happ.2.1⟩

/-- A finalize call that ends consumed (admin-contact or success) changes
the verification table exactly as staged: the consumed mark stays. -/
theorem finalize_consumed_verifications {s sm : LibState} {uid : Nat}
    {v : TransactionVerification} {now : Int} {s1 : LibState}
    {r : VerifyResult} (h : finalize s sm uid v now = (s1, r))
    (hr : r = VerifyResult.adminContact ∨ ∃ t, r = VerifyResult.success t) :
    s1.verifications = sm.verifications := by
  unfold finalize finalizeBorrow finalizeReturn finalizeRenew at h
  dsimp only [] at h
  repeat' split at h
  all_goals injection h with h1 h2
  all_goals subst h1
  all_goals first
    | rfl
    | (exfalso
       subst h2
       rcases hr with hh | ⟨t, hh⟩ <;> cases hh)

/-- A verify call that ends consumed went through a valid fresh code, which
is now marked consumed in the result state. -/
theorem verify_consumed {s : LibState} {uid : Nat} {raw : String} {now : Int}
    {s1 : LibState} {r : VerifyResult}
    (h : verify s uid raw now = (s1, r))
    (hr : r = VerifyResult.adminContact ∨ ∃ t, r = VerifyResult.success t) :
    ∃ v, s.verifications.find? (fun x => x.user_id == uid
        && x.verification_code == normalizeCode raw) = some v
      ∧ v.is_verified = false
      ∧ (normalizeCode raw).length = 6
      ∧ v.is_expired now = false
      ∧ s1.verifications = (markState s v now).verifications := by
  unfold verify at h
  dsimp only [] at h
  split at h
  · exfalso
    injection h with h1 h2
    subst h2
    rcases hr with hh | ⟨t, hh⟩ <;> cases hh
  rename_i hne0
  split at h
  · exfalso
    injection h with h1 h2
    subst h2
    rcases hr with hh | ⟨t, hh⟩ <;> cases hh
  rename_i hlen0
  split at h
  · exfalso
    injection h with h1 h2
    subst h2
    rcases hr with hh | ⟨t, hh⟩ <;> cases hh
  rename_i v hfind
  split at h
  · exfalso
    injection h with h1 h2
    subst h2
    rcases hr with hh | ⟨t, hh⟩ <;> cases hh
  rename_i hver0
  split at h
  · exfalso
    injection h with h1 h2
    subst h2
    rcases hr with hh | ⟨t, hh⟩ <;> cases hh
  rename_i hexp0
  refine ⟨v, hfind, by simpa using hver0, by simpa using hlen0,
    by simpa using hexp0, finalize_consumed_verifications h hr⟩

/-- C2: verification finalizes only a code that exists for the calling
user, is unconsumed and is unexpired; an unknown, already-used or expired
code is rejected with its own outcome and no state change; codes are
created with a 24-hour expiry; and once a call consumed a code (success or
the admin-contact race outcome), a second call with the same code answers
already-verified and changes nothing, so a code finalizes at most once. -/
theorem C2_code_single_use :
    (∀ (s : LibState) (uid : Nat) (raw : String) (now : Int),
      (normalizeCode raw).length = 6 →
      s.verifications.find? (fun x => x.user_id == uid
        && x.verification_code == normalizeCode raw) = none →
      verify s uid raw now = (s, VerifyResult.invalidCode)) ∧
    (∀ (s : LibState) (uid : Nat) (raw : String) (now : Int)
        (v : TransactionVerification),
      (normalizeCode raw).length = 6 →
      s.verifications.find? (fun x => x.user_id == uid
        && x.verification_code == normalizeCode raw) = some v →
      v.is_verified = true →
      verify s uid raw now = (s, VerifyResult.alreadyVerified)) ∧
    (∀ (s : LibState) (uid : Nat) (raw : String) (now : Int)
        (v : TransactionVerification),
      (normalizeCode raw).length = 6 →
      s.verifications.find? (fun x => x.user_id == uid
        && x.verification_code == normalizeCode raw) = some v →
      v.is_verified = false → v.is_expired now = true →
      verify s uid raw now = (s, VerifyResult.expiredCode)) ∧
    (∀ (s : LibState) (uid brid : Nat) (ttype code2 : String) (now : Int),
      ∀ w ∈ (createTransactionVerification s uid brid ttype code2
          now).verifications,
        w ∈ s.verifications
          ∨ (w.expires_at = now + 24 ∧ w.is_verified = false)) ∧
    (∀ (s : LibState) (uid : Nat) (raw : String) (now now2 : Int)
        (s1 : LibState) (r : VerifyResult),
      verify s uid raw now = (s1, r) →
      r = VerifyResult.adminContact ∨ (∃ t, r = VerifyResult.success t) →
      verify s1 uid raw now2 = (s1, VerifyResult.alreadyVerified)) := by
  have hne : ∀ raw : String, (normalizeCode raw).length = 6 →
      (normalizeCode raw == "") = false := by
    intro raw hlen
    simp only [beq_eq_false_iff_ne, ne_eq]
    intro h
    rw [h] at hlen
    simp at hlen
  refine ⟨?_, ?_, ?_, ?_, ?_⟩
  · intro s uid raw now hlen hfind
    have h2 : ((normalizeCode raw).length != 6) = false := by simp [hlen]
    unfold verify
    simp only [hne raw hlen, h2, hfind]
    simp
  · intro s uid raw now v hlen hfind hver
    have h2 : ((normalizeCode raw).length != 6) = false := by simp [hlen]
    unfold verify
    simp only [hne raw hlen, h2, hfind, hver]
    simp
  · intro s uid raw now v hlen hfind hver hexp
    have h2 : ((normalizeCode raw).length != 6) = false := by simp [hlen]
    unfold verify
    simp only [hne raw hlen, h2, hfind, hver, hexp]
    simp
  · intro s uid brid ttype code2 now w hw
    unfold createTransactionVerification at hw
    dsimp only [] at hw
    rcases List.mem_append.1 hw with hw | hw
    · exact Or.inl hw
    · rw [List.mem_singleton] at hw
      subst hw
      exact Or.inr ⟨rfl, rfl⟩
  · intro s uid raw now now2 s1 r h hr
    obtain ⟨v, hfind, hun, hlen, hexp, hveri⟩ := verify_consumed h hr
    have hfind1 : s1.verifications.find? (fun x => x.user_id == uid
        && x.verification_code == normalizeCode raw)
        = some (markVerified now v) := by
      rw [hveri]
      exact marked_lookup hfind
    have h2 : ((normalizeCode raw).length != 6) = false := by simp [hlen]
    have h3 : (markVerified now v).is_verified = true := rfl
    unfold verify
    simp only [hne raw hlen, h2, hfind1, h3]
    simp

/-- The state after the witness borrow code was consumed. -/
def sBdone : LibState := (verify sB 1 "ABC123" 5).1

/-- Witness for C2: after a successful consumption, retrying the same code
answers already-verified with no change; an unknown code is rejected. -/
theorem C2_code_single_use_witness :
    verify sBdone 1 "ABC123" 7 = (sBdone, VerifyResult.alreadyVerified)
      ∧ verify exState 1 "ZZZZZZ" 0 = (exState, VerifyResult.invalidCode) :=
  ⟨C2_code_single_use.2.2.2.2 sB 1 "ABC123" 5 7 sBdone
      (VerifyResult.success "borrow") (by decide)
      (Or.inr ⟨"borrow", rfl⟩),
   C2_code_single_use.1 exState 1 "ZZZZZZ" 0 (by decide) (by decide)⟩

end LibMS

